import Mathlib

/-!
Verification development for the hashdive scraping pipeline:
a shallow embedding of the streaming session layer
(`hashdive/api/hashdiveWS.py`, `hashdive/api/hashdiveConnectionPool.py`,
`hashdive/api/hashdiveService.py`, `hashdive/analyze_user/fetch_multiple_users.py`)
and of the stateful message-classification and field-extraction pipeline
(`hashdive/parser/AnalyzeUserMessageClassifier.py`,
`hashdive/parser/AnalyzeUserDataParser.py`), together with theorems about the
claims of the design specification.

Modelling conventions: Python dicts with a fixed shape become structures with
`Option` fields for optional keys; Python floats are modelled as exact
rationals (no claim here depends on binary floating-point rounding); the
external frame codec and JSON decoding boundaries deliver already-structured
values where the code treats them as opaque, and concrete string parsing is
modelled where the code itself scans strings.
-/

namespace Hashdive

/-- Python `sub in s` substring test on strings. -/
def strContains (s pat : String) : Bool :=
  decide (List.IsInfix pat.toList s.toList)

/-- The closed tag enumeration of `AnalyzeUserMessageClassifier.UserMessageType`. -/
inductive UserMessageType where
  | TRADER_TYPE
  | TRADER_TYPE_DESC
  | STATS_TOTAL_POSITIONS
  | STATS_ACTIVE_SINCE
  | STATS_CURRENT_BALANCE
  | VIEW_ON_POLYMARKET
  | RANK_1D
  | RANK_7D
  | RANK_30D
  | RANK_ALLTIME
  | SMART_SCORE_SUMMARY
  | HISTORICAL_PNL_CHART
  | SHARPE_RATIO
  | TRADED_VOLUME_30D
  | ACTIVE_BETS_SUM
  | ACTIVE_BETS_TABLE
  | FINISHED_BETS_SUM
  | FINISHED_BETS_TABLE
  | BEST_TRADE
  | WORST_TRADE
  | DISTRIBUTION_ROI
  | MOST_TRADED_CATEGORIES
  | SMART_SCORE_BY_CATEGORY
  | WIN_RATE_BY_CATEGORY
  | RECENT_TRADES_TABLE
  | WHERE_TRADER_BETS_MOST
  | UNKNOWN
  deriving DecidableEq

/-- The `markdown` sub-dict of a decoded frame element (`body` key). -/
structure MarkdownElem where
  body : String
  deriving DecidableEq

/-- The `metric` sub-dict of a decoded frame element (`label` and `body` keys). -/
structure MetricElem where
  label : String
  body : String
  deriving DecidableEq

/-- The `plotlyChart` sub-dict of a decoded frame element (`spec` key, a JSON text). -/
structure PlotlyChartElem where
  spec : String
  deriving DecidableEq

/-- The `arrowDataFrame` sub-dict of a decoded frame element (`columns` key). -/
structure ArrowDataFrameElem where
  columns : String
  deriving DecidableEq

/-- The `delta.newElement` sub-dict of a decoded frame: each known element
kind is present or absent, mirroring the `'key' in new_element` tests. -/
structure NewElement where
  markdown : Option MarkdownElem
  metric : Option MetricElem
  plotlyChart : Option PlotlyChartElem
  arrowDataFrame : Option ArrowDataFrameElem
  deriving DecidableEq

/-- `new_element` defaults to the empty dict when `delta`/`newElement` is absent. -/
def NewElement.empty : NewElement :=
  { markdown := none, metric := none, plotlyChart := none, arrowDataFrame := none }

/-- The `delta` sub-dict of a decoded frame. -/
structure Delta where
  newElement : Option NewElement
  deriving DecidableEq

/-- The `metadata` sub-dict of a decoded frame (`deltaPath` key). -/
structure Metadata where
  deltaPath : List Nat
  deriving DecidableEq

/-- A decoded frame, as the classifier, extractor and run driver read it:
`delta.newElement` carries the rendered element, `metadata.deltaPath` the
structural path, and `scriptFinished` the terminal signal key. -/
structure MessageData where
  delta : Option Delta
  metadata : Option Metadata
  scriptFinished : Option String
  deriving DecidableEq

/-- `message_data.get('delta', {}).get('newElement', {})`. -/
def MessageData.newElement (m : MessageData) : NewElement :=
  match m.delta with
  | some d => d.newElement.getD NewElement.empty
  | none => NewElement.empty

/-- `AnalyzeUserMessageClassifier._extract_content`: concatenates, separated by
single spaces, the markdown body, the metric label and body, the plotly spec
and the stringified arrow columns, for the element kinds present. -/
def extractContent (ne : NewElement) : String :=
  let parts : List String :=
    (match ne.markdown with
     | some md => [md.body]
     | none => []) ++
    (match ne.metric with
     | some mt => [mt.label, mt.body]
     | none => []) ++
    (match ne.plotlyChart with
     | some pc => [pc.spec]
     | none => []) ++
    (match ne.arrowDataFrame with
     | some ad => [ad.columns]
     | none => [])
  String.intercalate (" ") parts

/-- The mutable instance attributes of `AnalyzeUserMessageClassifier`:
last tag seen, the rank-family counter, and the two one-shot seen flags. -/
structure ClassifierState where
  last_message_type : Option UserMessageType
  rank_sequence_count : Nat
  active_bets_seen : Bool
  finished_bets_seen : Bool
  deriving DecidableEq

/-- The state set by `AnalyzeUserMessageClassifier.__init__`. -/
def initClassifierState : ClassifierState :=
  { last_message_type := none
    rank_sequence_count := 0
    active_bets_seen := false
    finished_bets_seen := false }

/-- Fourth chunk of the content-sniffing cascade of `_identify_message_type`
(source order, ending in the catch-all tag). -/
def contentChainD (s3 : ClassifierState) (content : String) :
    UserMessageType × ClassifierState :=
  if strContains content ("Markets traded:") then
    (UserMessageType.MOST_TRADED_CATEGORIES, s3)
  else if strContains content ("Smart Score: %\x7br:.2f\x7d") then
    (UserMessageType.SMART_SCORE_BY_CATEGORY, s3)
  else if strContains content ("Win Rate: %\x7br:.2%\x7d") then
    (UserMessageType.WIN_RATE_BY_CATEGORY, s3)
  else if strContains content ("\"timestamp\": \x7b\"label\": \"Timestamp\"")
      && strContains content ("\"question\": \x7b\"label\": \"Question\"") then
    (UserMessageType.RECENT_TRADES_TABLE, s3)
  else if strContains content ("Where This Trader Bets Most") then
    (UserMessageType.WHERE_TRADER_BETS_MOST, s3)
  else
    (UserMessageType.UNKNOWN, s3)

/-- Third chunk of the content-sniffing cascade (source order).  The
active/finished bets summary branches remember their tag for the next
frame. -/
def contentChainC (s3 : ClassifierState) (content : String) :
    UserMessageType × ClassifierState :=
  if strContains content ("Active Bets") && strContains content ("PnL:") then
    (UserMessageType.ACTIVE_BETS_SUM,
      { s3 with last_message_type := some UserMessageType.ACTIVE_BETS_SUM })
  else if strContains content ("Finished Bets") && strContains content ("PnL:") then
    (UserMessageType.FINISHED_BETS_SUM,
      { s3 with last_message_type := some UserMessageType.FINISHED_BETS_SUM })
  else if strContains content ("Best trade (ROI):") then
    (UserMessageType.BEST_TRADE, s3)
  else if strContains content ("Worst trade (ROI):") then
    (UserMessageType.WORST_TRADE, s3)
  else if strContains content ("Distribution of ROI weighted by invested capital") then
    (UserMessageType.DISTRIBUTION_ROI, s3)
  else
    contentChainD s3 content

/-- Second chunk of the content-sniffing cascade (source order).  The
ranked-window trigger remembers RANK_1D for the next frame. -/
def contentChainB (s3 : ClassifierState) (content : String) :
    UserMessageType × ClassifierState :=
  if strContains content (">Rank: ") then
    (UserMessageType.RANK_1D,
      { s3 with last_message_type := some UserMessageType.RANK_1D })
  else if strContains content ("User Smart Score:") then
    (UserMessageType.SMART_SCORE_SUMMARY, s3)
  else if strContains content ("Historical PnL") then
    (UserMessageType.HISTORICAL_PNL_CHART, s3)
  else if strContains content ("Sharpe Ratio:") then
    (UserMessageType.SHARPE_RATIO, s3)
  else if strContains content ("Traded USD Volume (Last 30d, daily)") then
    (UserMessageType.TRADED_VOLUME_30D, s3)
  else
    contentChainC s3 content

/-- The content-sniffing chain of `_identify_message_type` (the `if ... in
content` cascade after the state-dependent branches), in source order,
starting with its first chunk.  The type-label branch remembers TRADER_TYPE
for the next frame. -/
def contentPhase (s3 : ClassifierState) (content : String) :
    UserMessageType × ClassifierState :=
  if strContains content (":material/") then
    (UserMessageType.TRADER_TYPE,
      { s3 with last_message_type := some UserMessageType.TRADER_TYPE })
  else if strContains content (">Total Positions<") then
    (UserMessageType.STATS_TOTAL_POSITIONS, s3)
  else if strContains content (">Active Since<") then
    (UserMessageType.STATS_ACTIVE_SINCE, s3)
  else if strContains content ("Current Balance\n")
      || strContains content (">Current Balance<") then
    (UserMessageType.STATS_CURRENT_BALANCE, s3)
  else if strContains content ("<a href=\"https://polymarket.com/profile/") then
    (UserMessageType.VIEW_ON_POLYMARKET, s3)
  else
    contentChainB s3 content

/-- The ranked-window branch of `_identify_message_type` (counter increment,
the three follow-up tags, reset after the fourth member, and fall-through to
the content chain when the counter leaves the 1..3 window). -/
def rankPhase (s2 : ClassifierState) (content : String) :
    UserMessageType × ClassifierState :=
  if s2.last_message_type = some UserMessageType.RANK_1D then
    if s2.rank_sequence_count + 1 = 1 then
      (UserMessageType.RANK_7D, { s2 with rank_sequence_count := s2.rank_sequence_count + 1 })
    else if s2.rank_sequence_count + 1 = 2 then
      (UserMessageType.RANK_30D, { s2 with rank_sequence_count := s2.rank_sequence_count + 1 })
    else if s2.rank_sequence_count + 1 = 3 then
      (UserMessageType.RANK_ALLTIME,
        { s2 with rank_sequence_count := 0, last_message_type := none })
    else
      contentPhase ({ s2 with rank_sequence_count := s2.rank_sequence_count + 1 }) content
  else
    contentPhase s2 content

/-- The one-shot finished-bets table branch of `_identify_message_type`:
fires at most once (seen flag), consumes `last_message_type`, and yields the
table tag only when an `arrowDataFrame` element is present — otherwise it
falls through to the rank branch with the flag already consumed. -/
def finishedPhase (s1 : ClassifierState) (ne : NewElement) (content : String) :
    UserMessageType × ClassifierState :=
  if s1.last_message_type = some UserMessageType.FINISHED_BETS_SUM
      ∧ s1.finished_bets_seen = false then
    if ne.arrowDataFrame.isSome then
      (UserMessageType.FINISHED_BETS_TABLE,
        { s1 with finished_bets_seen := true, last_message_type := none })
    else
      rankPhase ({ s1 with finished_bets_seen := true, last_message_type := none }) content
  else
    rankPhase s1 content

/-- `AnalyzeUserMessageClassifier._identify_message_type`, with the mutable
instance state threaded explicitly: returns the tag and the updated state.
The branches are checked in source order: the trader-type description
branch, the one-shot active-bets table branch (`finishedPhase`,
`rankPhase` and `contentPhase` continue the chain), the one-shot
finished-bets table branch, the ranked-window branch, and finally the
content-sniffing cascade. -/
def identifyMessageType (s0 : ClassifierState) (m : MessageData) :
    UserMessageType × ClassifierState :=
  if s0.last_message_type = some UserMessageType.TRADER_TYPE then
    (UserMessageType.TRADER_TYPE_DESC, { s0 with last_message_type := none })
  else if s0.last_message_type = some UserMessageType.ACTIVE_BETS_SUM
      ∧ s0.active_bets_seen = false then
    if m.newElement.arrowDataFrame.isSome then
      (UserMessageType.ACTIVE_BETS_TABLE,
        { s0 with active_bets_seen := true, last_message_type := none })
    else
      finishedPhase ({ s0 with active_bets_seen := true, last_message_type := none })
        m.newElement (extractContent m.newElement)
  else
    finishedPhase s0 m.newElement (extractContent m.newElement)

/-- The `(tag, raw frame, structural path)` triple produced by
`AnalyzeUserMessageClassifier.classify_message`. -/
structure ClassifiedMessage where
  message_type : UserMessageType
  data : MessageData
  delta_path : List Nat
  deriving DecidableEq

/-- `AnalyzeUserMessageClassifier.classify_message`, state threaded explicitly. -/
def classifyMessage (s : ClassifierState) (m : MessageData) :
    ClassifiedMessage × ClassifierState :=
  let dp := match m.metadata with
    | some md => md.deltaPath
    | none => []
  let (t, s') := identifyMessageType s m
  ({ message_type := t, data := m, delta_path := dp }, s')

/-- Classify a frame sequence in arrival order, returning the tag sequence
and the final classifier state. -/
def classifyList (s : ClassifierState) : List MessageData →
    List UserMessageType × ClassifierState
  | [] => ([], s)
  | m :: rest =>
    let (t, s') := identifyMessageType s m
    let (ts, sEnd) := classifyList s' rest
    (t :: ts, sEnd)

/-- A markdown-only frame with the given body, the common shape in the stream. -/
def mdMsg (body : String) : MessageData :=
  let ne := { NewElement.empty with markdown := some ({ body := body }) }
  { delta := some ({ newElement := some ne }),
    metadata := none,
    scriptFinished := none }

/-- True when the content matches none of the content-sniffing signatures of
`_identify_message_type` (the frame can only be tagged through classifier
state, or fall to the catch-all tag). -/
def matchesNoContentSignature (c : String) : Bool :=
  !(strContains c (":material/")) &&
  !(strContains c (">Total Positions<")) &&
  !(strContains c (">Active Since<")) &&
  !(strContains c ("Current Balance\n")) &&
  !(strContains c (">Current Balance<")) &&
  !(strContains c ("<a href=\"https://polymarket.com/profile/")) &&
  !(strContains c (">Rank: ")) &&
  !(strContains c ("User Smart Score:")) &&
  !(strContains c ("Historical PnL")) &&
  !(strContains c ("Sharpe Ratio:")) &&
  !(strContains c ("Traded USD Volume (Last 30d, daily)")) &&
  !(strContains c ("Active Bets") && strContains c ("PnL:")) &&
  !(strContains c ("Finished Bets") && strContains c ("PnL:")) &&
  !(strContains c ("Best trade (ROI):")) &&
  !(strContains c ("Worst trade (ROI):")) &&
  !(strContains c ("Distribution of ROI weighted by invested capital")) &&
  !(strContains c ("Markets traded:")) &&
  !(strContains c ("Smart Score: %\x7br:.2f\x7d")) &&
  !(strContains c ("Win Rate: %\x7br:.2%\x7d")) &&
  !(strContains c ("\"timestamp\": \x7b\"label\": \"Timestamp\"") &&
      strContains c ("\"question\": \x7b\"label\": \"Question\"")) &&
  !(strContains c ("Where This Trader Bets Most"))

/-- Facts shared by the rank branch and the content cascade of the
classifier, relating the state they return to the state they were given:
the two one-shot seen flags are untouched, `last_message_type` becomes
ACTIVE_BETS_SUM (resp. FINISHED_BETS_SUM) exactly when that tag is returned
or was already remembered, and neither table tag is produced there. -/
def PhaseSpec (s : ClassifierState) (r : UserMessageType × ClassifierState) : Prop :=
  r.2.active_bets_seen = s.active_bets_seen ∧
  r.2.finished_bets_seen = s.finished_bets_seen ∧
  (r.1 = UserMessageType.ACTIVE_BETS_SUM →
    r.2.last_message_type = some UserMessageType.ACTIVE_BETS_SUM) ∧
  (r.2.last_message_type = some UserMessageType.ACTIVE_BETS_SUM →
    r.1 = UserMessageType.ACTIVE_BETS_SUM
      ∨ s.last_message_type = some UserMessageType.ACTIVE_BETS_SUM) ∧
  (r.1 = UserMessageType.FINISHED_BETS_SUM →
    r.2.last_message_type = some UserMessageType.FINISHED_BETS_SUM) ∧
  (r.2.last_message_type = some UserMessageType.FINISHED_BETS_SUM →
    r.1 = UserMessageType.FINISHED_BETS_SUM
      ∨ s.last_message_type = some UserMessageType.FINISHED_BETS_SUM) ∧
  r.1 ≠ UserMessageType.ACTIVE_BETS_TABLE ∧
  r.1 ≠ UserMessageType.FINISHED_BETS_TABLE

/-- Invariant tying one one-shot category (given by its seen-flag projection,
summary tag and table tag) to the tags produced so far: the flag is set
exactly when some summary tag has a successor frame; while the flag is clear
the remembered tag is the summary tag exactly when the last produced tag is;
at most one table tag was produced; and a produced table tag sits right after
the first summary tag, on a frame carrying an arrowDataFrame element. -/
def CatInv (flag : ClassifierState → Bool) (sumT tableT : UserMessageType)
    (s : ClassifierState) (ts : List UserMessageType) (ms : List MessageData) : Prop :=
  ts.length = ms.length ∧
  (flag s = true ↔ ∃ j, j + 1 < ts.length ∧ ts.get? j = some sumT) ∧
  (flag s = false →
    (s.last_message_type = some sumT ↔ ts.getLast? = some sumT)) ∧
  List.countP (fun x => decide (x = tableT)) ts ≤ 1 ∧
  (∀ i, ts.get? i = some tableT →
    1 ≤ i ∧ ts.get? (i - 1) = some sumT ∧
    (∀ j, j < i - 1 → ts.get? j ≠ some sumT) ∧
    (∃ m, ms.get? i = some m ∧ m.newElement.arrowDataFrame.isSome = true))

/-- The tag sequence of a record-extraction run: the frames classified in
arrival order from the freshly initialised classifier. -/
def runTags (msgs : List MessageData) : List UserMessageType :=
  (classifyList initClassifierState msgs).1

/-- A concrete active-bets summary frame. -/
def absMsgEx : MessageData :=
  mdMsg ("Active Bets 12 PnL: 34")

/-- A concrete follow-up frame carrying an arrowDataFrame element. -/
def arrowMsgEx : MessageData :=
  let ne := { NewElement.empty with arrowDataFrame := some ({ columns := "c" }) }
  { delta := some ({ newElement := some ne }),
    metadata := none,
    scriptFinished := none }

/-- Python `\s` character class (the form feed and vertical tab of Python
are included for completeness). -/
def pyIsSpace (c : Char) : Bool :=
  c = (' ' : Char) || c = ('\t' : Char) || c = ('\n' : Char) || c = ('\r' : Char)
    || c = ('\x0b' : Char) || c = ('\x0c' : Char)

/-- Value of a digit string (most significant first). -/
def digitsVal (ds : List Char) : Nat :=
  ds.foldl (fun a c => a * 10 + (c.toNat - 48)) 0

/-- Python `int()` on the all-digit strings produced by the extraction
patterns. -/
def pyInt (s : String) : Nat :=
  digitsVal s.toList

/-- Python `float()` on the plain decimal strings produced by the extraction
patterns after comma removal: an optional leading minus sign, digits, an
optional dot with further digits.  Any other shape raises in Python and is
`none` here.  The value is modelled as an exact rational. -/
def pyFloat? (s : String) : Option ℚ :=
  let core : List Char → Option ℚ := fun cs =>
    let intPart := cs.takeWhile Char.isDigit
    let rest := cs.drop intPart.length
    match rest with
    | [] =>
      if intPart.isEmpty then none
      else some ((digitsVal intPart : ℤ) : ℚ)
    | '.' :: frac =>
      if frac.all Char.isDigit && !(intPart.isEmpty && frac.isEmpty) then
        some (((digitsVal intPart : ℤ) : ℚ)
          + ((digitsVal frac : ℤ) : ℚ) / ((10 ^ frac.length : ℤ) : ℚ))
      else none
    | _ => none
  match s.toList with
  | '-' :: cs => (core cs).map (fun q => -q)
  | cs => core cs

/-- Python `str.replace(',', '')`. -/
def removeCommas (s : String) : String :=
  String.mk (s.toList.filter (fun c => c ≠ (',' : Char)))

/-- First match of a pattern over all start positions of a string, scanning
left to right — the search order of `re.search`. -/
def scanFirst {α : Type} (f : List Char → Option α) : List Char → Option α
  | [] => none
  | c :: t =>
    match f (c :: t) with
    | some r => some r
    | none => scanFirst f t

/-- Matches `[\d,]+\.?\d*` at the head of the input followed by the literal
`tail`, with the backtracking behaviour of the greedy optional dot: capture
the comma-digit run, then a dot plus digit run when the literal follows it,
and the literal must follow directly otherwise. -/
def matchNumThen (tail : List Char) (cs : List Char) : Option (List Char) :=
  let runA := cs.takeWhile (fun c => c.isDigit || c = (',' : Char))
  if runA.isEmpty then none
  else
    let rest := cs.drop runA.length
    match rest with
    | '.' :: afterDot =>
      let runD := afterDot.takeWhile Char.isDigit
      if List.isPrefixOf tail (afterDot.drop runD.length) then
        some (runA ++ ('.' : Char) :: runD)
      else none
    | other =>
      if List.isPrefixOf tail other then some runA else none

/-- Matches `[\d,]+\.?\d*` at the head of the input with nothing required
after it (the greedy capture simply takes the longest run). -/
def matchNumBare (cs : List Char) : Option (List Char) :=
  let runA := cs.takeWhile (fun c => c.isDigit || c = (',' : Char))
  if runA.isEmpty then none
  else
    match cs.drop runA.length with
    | '.' :: afterDot => some (runA ++ ('.' : Char) :: afterDot.takeWhile Char.isDigit)
    | _ => some runA

/-- Drop a literal prefix, failing when it is absent. -/
def dropLit (lit : List Char) (cs : List Char) : Option (List Char) :=
  if List.isPrefixOf lit cs then some (cs.drop lit.length) else none

/-- `message.get('delta', \x7b\x7d).get('newElement', \x7b\x7d).get('markdown', \x7b\x7d).get('body', '')`. -/
def MessageData.markdownBody (m : MessageData) : String :=
  match m.newElement.markdown with
  | some md => md.body
  | none => ""

/-- `message...get('metric', \x7b\x7d).get('body', '')`. -/
def MessageData.metricBody (m : MessageData) : String :=
  match m.newElement.metric with
  | some mt => mt.body
  | none => ""

/-- `_extract_rank`: the patterns `Rank: #(\d+)` and `\$([\d.]+[kKmM]?)`
against the markdown body; returns the `place` and `amount` fields. -/
def _extract_rank (m : MessageData) : Option String × Option String :=
  let body := m.markdownBody.toList
  let place := scanFirst (fun cs =>
    (dropLit (("Rank: #").toList) cs).bind (fun rest =>
      let ds := rest.takeWhile Char.isDigit
      if ds.isEmpty then none else some ds)) body
  let amount := scanFirst (fun cs =>
    match cs with
    | '$' :: rest =>
      let run := rest.takeWhile (fun c => c.isDigit || c = ('.' : Char))
      if run.isEmpty then none
      else
        match rest.drop run.length with
        | k :: _ =>
          if k = ('k' : Char) || k = ('K' : Char)
              || k = ('m' : Char) || k = ('M' : Char) then
            some (run ++ [k])
          else some run
        | [] => some run
    | _ => none) body
  (place.map (fun ds => String.mk (('#' : Char) :: ds)),
    amount.map (fun r => String.mk (('$' : Char) :: r)))

/-- `_extract_total_positions`: the pattern `>(\d+)</div>` against the
markdown body, converted with `int`. -/
def _extract_total_positions (m : MessageData) : Option Nat :=
  scanFirst (fun cs =>
    match cs with
    | '>' :: rest =>
      let ds := rest.takeWhile Char.isDigit
      if ds.isEmpty then none
      else if List.isPrefixOf (("</div>").toList) (rest.drop ds.length) then
        some (digitsVal ds)
      else none
    | _ => none) m.markdownBody.toList

/-- `_extract_active_since`: the date pattern
`color: #312e81;">([A-Za-z]+ \d\x7b4\x7d)</div>` and the day-count pattern
`color: #1e1b4b;">(\d+) days</div>` against the markdown body. -/
def _extract_active_since (m : MessageData) : Option String × Option Nat :=
  let body := m.markdownBody.toList
  let date := scanFirst (fun cs =>
    (dropLit (("color: #312e81;\">").toList) cs).bind (fun r1 =>
      let letters := r1.takeWhile Char.isAlpha
      if letters.isEmpty then none
      else
        match r1.drop letters.length with
        | ' ' :: r2 =>
          let d4 := r2.take 4
          if d4.length = 4 && d4.all Char.isDigit
              && List.isPrefixOf (("</div>").toList) (r2.drop 4) then
            some (letters ++ (' ' : Char) :: d4)
          else none
        | _ => none)) body
  let days := scanFirst (fun cs =>
    (dropLit (("color: #1e1b4b;\">").toList) cs).bind (fun r1 =>
      let ds := r1.takeWhile Char.isDigit
      if ds.isEmpty then none
      else if List.isPrefixOf ((" days</div>").toList) (r1.drop ds.length) then
        some (digitsVal ds)
      else none)) body
  (date.map String.mk, days)

/-- `_extract_current_balance`: the pattern `<span>([\d,]+\.?\d*)</span>`
against the markdown body, converted with `float` after comma removal. -/
def _extract_current_balance (m : MessageData) : Option ℚ :=
  (scanFirst (fun cs =>
    (dropLit (("<span>").toList) cs).bind (matchNumThen (("</span>").toList)))
    m.markdownBody.toList).bind
    (fun numCs => pyFloat? (removeCommas (String.mk numCs)))

/-- `_extract_polymarket_url`: the pattern
`href="(https://polymarket\.com/profile/[^"]+)"` against the markdown body. -/
def _extract_polymarket_url (m : MessageData) : Option String :=
  (scanFirst (fun cs =>
    (dropLit (("href=\"https://polymarket.com/profile/").toList) cs).bind (fun r1 =>
      let run := r1.takeWhile (fun c => c ≠ ('"' : Char))
      if run.isEmpty then none
      else
        match r1.drop run.length with
        | '"' :: _ => some ((("https://polymarket.com/profile/").toList) ++ run)
        | _ => none)) m.markdownBody.toList).map String.mk

/-- `_extract_smart_score_summary`: the patterns
`Smart Score: <strong>([\d.]+)</strong>` and
`Total PnL: <strong>\$([\d,]+\.?\d*)</strong>`; a `float` conversion failure
aborts the handler, keeping only the fields assigned before it. -/
def _extract_smart_score_summary (m : MessageData) : Option ℚ × Option ℚ :=
  let body := m.markdownBody.toList
  let scoreM := scanFirst (fun cs =>
    (dropLit (("Smart Score: <strong>").toList) cs).bind (fun r1 =>
      let run := r1.takeWhile (fun c => c.isDigit || c = ('.' : Char))
      if run.isEmpty then none
      else if List.isPrefixOf (("</strong>").toList) (r1.drop run.length) then
        some run
      else none)) body
  let pnlM := scanFirst (fun cs =>
    (dropLit (("Total PnL: <strong>$").toList) cs).bind
      (matchNumThen (("</strong>").toList))) body
  let pnlVal : Option ℚ × Option ℚ → Option ℚ × Option ℚ := fun acc =>
    match pnlM with
    | some pC =>
      match pyFloat? (removeCommas (String.mk pC)) with
      | some w => (acc.1, some w)
      | none => acc
    | none => acc
  match scoreM with
  | some sC =>
    match pyFloat? (String.mk sC) with
    | some v => pnlVal (some v, none)
    | none => (none, none)
  | none => pnlVal (none, none)

/-- `_extract_sharpe_ratio`: the pattern `Sharpe Ratio: <span>([\d.]+)</span>`
against the markdown body, converted with `float`. -/
def _extract_sharpe_ratio (m : MessageData) : Option ℚ :=
  (scanFirst (fun cs =>
    (dropLit (("Sharpe Ratio: <span>").toList) cs).bind (fun r1 =>
      let run := r1.takeWhile (fun c => c.isDigit || c = ('.' : Char))
      if run.isEmpty then none
      else if List.isPrefixOf (("</span>").toList) (r1.drop run.length) then
        some run
      else none)) m.markdownBody.toList).bind
    (fun run => pyFloat? (String.mk run))

/-- `_extract_traded_volume`: the pattern `\$([\d,]+)` against the metric
body, converted with `float` after comma removal. -/
def _extract_traded_volume (m : MessageData) : Option ℚ :=
  (scanFirst (fun cs =>
    match cs with
    | '$' :: rest =>
      let run := rest.takeWhile (fun c => c.isDigit || c = (',' : Char))
      if run.isEmpty then none else some run
    | _ => none) m.metricBody.toList).bind
    (fun run => pyFloat? (removeCommas (String.mk run)))

/-- The tail of the bets-sum pnl pattern after its lazy gap: `<span[^>]*>`
then whitespace, a dollar sign and the number. -/
def betsPnlTail (cs : List Char) : Option (List Char) :=
  (dropLit (("<span").toList) cs).bind (fun r1 =>
    let run := r1.takeWhile (fun x => x ≠ ('>' : Char))
    match r1.drop run.length with
    | '>' :: r3 =>
      match r3.drop (r3.takeWhile pyIsSpace).length with
      | '$' :: r5 => matchNumBare r5
      | _ => none
    | _ => none)

/-- The lazy `.*?` gap of the bets-sum pnl pattern: scan forward without
crossing a newline, trying the `<span...` tail at each position. -/
def pnlInner : List Char → Option (List Char)
  | [] => none
  | c :: t =>
    match betsPnlTail (c :: t) with
    | some r => some r
    | none => if c = ('\n' : Char) then none else pnlInner t

/-- Shared body of `_extract_active_bets_sum` and
`_extract_finished_bets_sum`: the amount pattern
`font-size: 26px[^>]*>\s*\$([\d,]+\.?\d*)` and the pnl pattern
`PnL:.*?<span[^>]*>\s*\$([\d,]+\.?\d*)`, with the handler-abort semantics of
a failing `float`. -/
def extractBetsSum (m : MessageData) : Option ℚ × Option ℚ :=
  let body := m.markdownBody.toList
  let amountM := scanFirst (fun cs =>
    (dropLit (("font-size: 26px").toList) cs).bind (fun r1 =>
      let run := r1.takeWhile (fun x => x ≠ ('>' : Char))
      match r1.drop run.length with
      | '>' :: r3 =>
        match r3.drop (r3.takeWhile pyIsSpace).length with
        | '$' :: r5 => matchNumBare r5
        | _ => none
      | _ => none)) body
  let pnlM := scanFirst (fun cs =>
    (dropLit (("PnL:").toList) cs).bind pnlInner) body
  let pnlVal : Option ℚ × Option ℚ → Option ℚ × Option ℚ := fun acc =>
    match pnlM with
    | some pC =>
      match pyFloat? (removeCommas (String.mk pC)) with
      | some w => (acc.1, some w)
      | none => acc
    | none => acc
  match amountM with
  | some aC =>
    match pyFloat? (removeCommas (String.mk aC)) with
    | some v => pnlVal (some v, none)
    | none => (none, none)
  | none => pnlVal (none, none)

/-- `_extract_active_bets_sum`. -/
def _extract_active_bets_sum (m : MessageData) : Option ℚ × Option ℚ :=
  extractBetsSum m

/-- `_extract_finished_bets_sum` (its body is identical to the active
variant). -/
def _extract_finished_bets_sum (m : MessageData) : Option ℚ × Option ℚ :=
  extractBetsSum m

/-- The sign characters accepted by the trade patterns: plus, minus and the
Unicode minus sign. -/
def isTradeSign (c : Char) : Bool :=
  c = ('+' : Char) || c = ('−' : Char) || c = ('-' : Char)

/-- Python processing of the trade percent capture:
`replace(',', '').replace('−', '-').replace('+', '')` then `float`. -/
def procToFloat (cap : List Char) : Option ℚ :=
  let cleaned := (cap.filter (fun c => c ≠ (',' : Char) && c ≠ ('+' : Char))).map
    (fun c => if c = ('−' : Char) then ('-' : Char) else c)
  pyFloat? (String.mk cleaned)

/-- `_extract_trade_data`: the percent pattern `>([+−\-]?[\d,]+\.?\d*)%<`
and the amount pattern `\(([+−\-]?)\$([\d,]+\.?\d*)\)` against the markdown
body, with the handler-abort semantics of a failing `float`. -/
def _extract_trade_data (m : MessageData) : Option ℚ × Option ℚ :=
  let body := m.markdownBody.toList
  let procM := scanFirst (fun cs =>
    match cs with
    | '>' :: r1 =>
      let signed : List Char × List Char :=
        match r1 with
        | c :: t => if isTradeSign c then ([c], t) else ([], r1)
        | [] => ([], r1)
      (matchNumThen (("%<").toList) signed.2).map (fun num => signed.1 ++ num)
    | _ => none) body
  let amountM := scanFirst (fun cs =>
    match cs with
    | '(' :: r1 =>
      let signed : List Char × List Char :=
        match r1 with
        | c :: t => if isTradeSign c then ([c], t) else ([], r1)
        | [] => ([], r1)
      match signed.2 with
      | '$' :: r3 =>
        (matchNumThen ((")").toList) r3).map (fun num => (signed.1, num))
      | _ => none
    | _ => none) body
  let amtVal : Option ℚ × Option ℚ → Option ℚ × Option ℚ := fun acc =>
    match amountM with
    | some (sgn, num) =>
      let negative := sgn = [('−' : Char)] || sgn = [('-' : Char)]
      let numStr := removeCommas (String.mk num)
      match pyFloat? (if negative then String.mk (('-' : Char) :: numStr.toList)
        else numStr) with
      | some w => (acc.1, some w)
      | none => acc
    | none => acc
  match procM with
  | some cap =>
    match procToFloat cap with
    | some v => amtVal (some v, none)
    | none => (none, none)
  | none => amtVal (none, none)

/-- Lazy capture of the trader-type pattern: up to the first `]`, not
crossing a newline. -/
def ttCapture (cs : List Char) : Option (List Char) :=
  let run := cs.takeWhile (fun c => c ≠ (']' : Char) && c ≠ ('\n' : Char))
  match cs.drop run.length with
  | ']' :: _ => some run
  | _ => none

/-- Lazy gap of the trader-type pattern: scan to each `[` in turn without
crossing a newline, trying the capture there. -/
def ttFindBracket : List Char → Option (List Char)
  | [] => none
  | c :: t =>
    if c = ('[' : Char) then
      match ttCapture t with
      | some cap => some cap
      | none => ttFindBracket t
    else if c = ('\n' : Char) then none
    else ttFindBracket t

/-- `re.sub(r':material/[^\s]+\s*', '', s)` (fuel-driven scan; the fuel is
at least the length of the input). -/
def subMaterial : Nat → List Char → List Char
  | 0, cs => cs
  | _ + 1, [] => []
  | f + 1, c :: t =>
    if List.isPrefixOf ((":material/").toList) (c :: t) then
      let r1 := (c :: t).drop 10
      let run := r1.takeWhile (fun x => !(pyIsSpace x))
      if run.isEmpty then c :: subMaterial f t
      else
        let r2 := r1.drop run.length
        subMaterial f (r2.drop (r2.takeWhile pyIsSpace).length)
    else c :: subMaterial f t

/-- `re.sub(r'\s*\([^)]+\)\s*', '', s)` (fuel-driven scan). -/
def subParen : Nat → List Char → List Char
  | 0, cs => cs
  | _ + 1, [] => []
  | f + 1, c :: t =>
    let cs := c :: t
    let ws1 := cs.takeWhile pyIsSpace
    match cs.drop ws1.length with
    | '(' :: r1 =>
      let inner := r1.takeWhile (fun x => x ≠ (')' : Char))
      if inner.isEmpty then c :: subParen f t
      else
        match r1.drop inner.length with
        | ')' :: r2 => subParen f (r2.drop (r2.takeWhile pyIsSpace).length)
        | _ => c :: subParen f t
    | _ => c :: subParen f t

/-- Python `str.strip()`. -/
def pyStrip (cs : List Char) : List Char :=
  ((cs.dropWhile pyIsSpace).reverse.dropWhile pyIsSpace).reverse

/-- `_extract_trader_type`: the pattern `:.*?\[(.*?)\]` against the markdown
body, then removal of the `:material/...` icon token and any parenthesized
group, and a final strip. -/
def _extract_trader_type (m : MessageData) : Option String :=
  let body := m.markdownBody.toList
  (scanFirst (fun cs =>
    match cs with
    | ':' :: r1 => ttFindBracket r1
    | _ => none) body).map (fun cap =>
      String.mk (pyStrip (subParen (cap.length + 1)
        (subMaterial (cap.length + 1) cap))))

/-- JSON values as produced by `json.loads` on the chart specs (subset: no
string escapes, no exponents — the shapes the extractor navigates). -/
inductive Json where
  | null
  | bool (b : Bool)
  | num (q : ℚ)
  | str (s : String)
  | arr (items : List Json)
  | obj (fields : List (String × Json))

/-- The hashable JSON scalars, usable as Python dict keys (an array or
object key raises TypeError in Python). -/
inductive JsonKey where
  | null
  | bool (b : Bool)
  | num (q : ℚ)
  | str (s : String)
  deriving DecidableEq

/-- The dict key for a JSON value: scalars only. -/
def Json.asKey : Json → Option JsonKey
  | Json.null => some JsonKey.null
  | Json.bool b => some (JsonKey.bool b)
  | Json.num q => some (JsonKey.num q)
  | Json.str s => some (JsonKey.str s)
  | Json.arr _ => none
  | Json.obj _ => none

/-- JSON whitespace. -/
def jsonIsWs (c : Char) : Bool :=
  c = (' ' : Char) || c = ('\t' : Char) || c = ('\n' : Char) || c = ('\r' : Char)

/-- Skip JSON whitespace. -/
def skipWs (cs : List Char) : List Char :=
  cs.dropWhile jsonIsWs

/-- Parse a JSON string body after its opening quote (subset: no escapes). -/
def parseJsonString (cs : List Char) : Option (String × List Char) :=
  let run := cs.takeWhile (fun c => c ≠ ('"' : Char) && c ≠ ('\\' : Char))
  match cs.drop run.length with
  | '"' :: r => some (String.mk run, r)
  | _ => none

/-- Parse a JSON number (subset: optional minus, digits, optional dot with
at least one digit). -/
def parseJsonNumber (cs : List Char) : Option (ℚ × List Char) :=
  let core : List Char → Option (ℚ × List Char) := fun cs2 =>
    let intPart := cs2.takeWhile Char.isDigit
    if intPart.isEmpty then none
    else
      match cs2.drop intPart.length with
      | '.' :: afterDot =>
        let frac := afterDot.takeWhile Char.isDigit
        if frac.isEmpty then none
        else some (((digitsVal intPart : ℤ) : ℚ)
          + ((digitsVal frac : ℤ) : ℚ) / ((10 ^ frac.length : ℤ) : ℚ),
          afterDot.drop frac.length)
      | other => some (((digitsVal intPart : ℤ) : ℚ), other)
  match cs with
  | '-' :: rest => (core rest).map (fun p => (-p.1, p.2))
  | _ => core cs

mutual

/-- Parse one JSON value (fuel-driven recursive descent). -/
def parseJsonVal : Nat → List Char → Option (Json × List Char)
  | 0, _ => none
  | f + 1, cs0 =>
    match skipWs cs0 with
    | '{' :: rest =>
      (match skipWs rest with
        | '}' :: r2 => some (Json.obj [], r2)
        | _ => (parseJsonMembers f rest).map (fun p => (Json.obj p.1, p.2)))
    | '[' :: rest =>
      (match skipWs rest with
        | ']' :: r2 => some (Json.arr [], r2)
        | _ => (parseJsonItems f rest).map (fun p => (Json.arr p.1, p.2)))
    | '"' :: rest => (parseJsonString rest).map (fun p => (Json.str p.1, p.2))
    | 't' :: rest => (dropLit (("rue").toList) rest).map (fun r => (Json.bool true, r))
    | 'f' :: rest => (dropLit (("alse").toList) rest).map (fun r => (Json.bool false, r))
    | 'n' :: rest => (dropLit (("ull").toList) rest).map (fun r => (Json.null, r))
    | other => (parseJsonNumber other).map (fun p => (Json.num p.1, p.2))

/-- Parse the members of a JSON object after its opening brace. -/
def parseJsonMembers : Nat → List Char → Option (List (String × Json) × List Char)
  | 0, _ => none
  | f + 1, cs =>
    match skipWs cs with
    | '"' :: rest =>
      (parseJsonString rest).bind (fun kp =>
        match skipWs kp.2 with
        | ':' :: r2 =>
          (parseJsonVal f r2).bind (fun vp =>
            match skipWs vp.2 with
            | ',' :: r4 =>
              (parseJsonMembers f r4).map (fun mp => ((kp.1, vp.1) :: mp.1, mp.2))
            | '}' :: r4 => some ([(kp.1, vp.1)], r4)
            | _ => none)
        | _ => none)
    | _ => none

/-- Parse the items of a JSON array after its opening bracket. -/
def parseJsonItems : Nat → List Char → Option (List Json × List Char)
  | 0, _ => none
  | f + 1, cs =>
    (parseJsonVal f cs).bind (fun vp =>
      match skipWs vp.2 with
      | ',' :: r2 => (parseJsonItems f r2).map (fun ip => (vp.1 :: ip.1, ip.2))
      | ']' :: r2 => some ([vp.1], r2)
      | _ => none)

end

/-- `json.loads`: parse a whole string, requiring only whitespace after the
value. -/
def jsonLoads (s : String) : Option Json :=
  (parseJsonVal (2 * s.length + 4) s.toList).bind (fun p =>
    if (skipWs p.2).isEmpty then some p.1 else none)

/-- Dict lookup as built by `json.loads` (a later duplicate key wins). -/
def lookupJson (fields : List (String × Json)) (k : String) : Option Json :=
  (fields.reverse.find? (fun p => p.1 = k)).map (fun p => p.2)

/-- Round half to even (the rounding of Python `round`), on exact
rationals. -/
def roundHalfEven (q : ℚ) : ℤ :=
  let f := Int.floor q
  let d := q - (f : ℚ)
  if d < 1 / 2 then f
  else if 1 / 2 < d then f + 1
  else if f % 2 = 0 then f else f + 1

/-- Python `round(y, 2)` on the exact-rational model. -/
def pythonRound2 (q : ℚ) : ℚ :=
  ((roundHalfEven (q * 100) : ℤ) : ℚ) / 100

/-- Replace the value of a present key in place, else append —
the update behaviour of a Python dict with insertion order. -/
def insertReplace (l : List (JsonKey × ℚ)) (k : JsonKey) (v : ℚ) : List (JsonKey × ℚ) :=
  match l with
  | [] => [(k, v)]
  | (a, b) :: t => if a = k then (a, v) :: t else (a, b) :: insertReplace t k v

/-- The bucket-building loop of `_extract_price_buckets`: pair each x entry
with the rounded y value at the same index (x entries beyond the y length
are skipped); a non-numeric y value or an unhashable x key raises,
discarding the whole result. -/
def buildBuckets (ys : List Json) : List (JsonKey × ℚ) → Nat → List Json →
    Option (List (JsonKey × ℚ))
  | acc, _, [] => some acc
  | acc, i, x :: xt =>
    if i < ys.length then
      match ys.get? i with
      | some (Json.num q) =>
        (match x.asKey with
          | some k => buildBuckets ys (insertReplace acc k (pythonRound2 q)) (i + 1) xt
          | none => none)
      | _ => none
    else buildBuckets ys acc (i + 1) xt

/-- `_extract_price_buckets`: decode the plotly spec JSON, navigate to the
x and y series of the first trace, and build the bucket map keyed by the x
entries; any failure along the way yields `none`. -/
def _extract_price_buckets (m : MessageData) : Option (List (JsonKey × ℚ)) :=
  let spec_str := match m.newElement.plotlyChart with
    | some pc => pc.spec
    | none => ""
  if spec_str = "" then none
  else
    match jsonLoads spec_str with
    | none => none
    | some (Json.obj fields) =>
      (match (lookupJson fields ("data")).getD (Json.arr []) with
        | Json.arr [] => none
        | Json.arr (first :: _) =>
          (match first with
            | Json.obj fFields =>
              (match (lookupJson fFields ("x")).getD (Json.arr []),
                  (lookupJson fFields ("y")).getD (Json.arr []) with
                | Json.arr xs, Json.arr ys => buildBuckets ys [] 0 xs
                | _, _ => none)
            | _ => none)
        | _ => none)
    | some _ => none

/-- The output record of `parse_user_messages` (the fields of the
`user_data` dict, in source order; the commented-out fields of the source
are absent). -/
structure UserRecord where
  trader_types : List String
  total_positions : Option Nat
  active_since_date : Option String
  active_since_days : Option Nat
  current_balance : Option ℚ
  polymarket_url : Option String
  rank_1d_place : Option String
  rank_1d_amount : Option String
  rank_7d_place : Option String
  rank_7d_amount : Option String
  rank_30d_place : Option String
  rank_30d_amount : Option String
  rank_all_time_place : Option String
  rank_all_time_amount : Option String
  smart_score : Option ℚ
  total_pnl : Option ℚ
  sharpe_ratio : Option ℚ
  traded_usd_volume_last_30d_sum : Option ℚ
  active_bets_amount : Option ℚ
  active_bets_pnl : Option ℚ
  finished_bets_amount : Option ℚ
  finished_bets_pnl : Option ℚ
  best_trade_roi_proc : Option ℚ
  best_trade_roi_amount : Option ℚ
  worst_trade_roi_proc : Option ℚ
  worst_trade_roi_amount : Option ℚ
  where_trader_bets_most : Option (List (JsonKey × ℚ))
  deriving DecidableEq

/-- The `user_data` dict as initialised at the top of
`parse_user_messages`: an empty type-label list and absent scalar fields. -/
def initUserRecord : UserRecord :=
  { trader_types := []
    total_positions := none
    active_since_date := none
    active_since_days := none
    current_balance := none
    polymarket_url := none
    rank_1d_place := none
    rank_1d_amount := none
    rank_7d_place := none
    rank_7d_amount := none
    rank_30d_place := none
    rank_30d_amount := none
    rank_all_time_place := none
    rank_all_time_amount := none
    smart_score := none
    total_pnl := none
    sharpe_ratio := none
    traded_usd_volume_last_30d_sum := none
    active_bets_amount := none
    active_bets_pnl := none
    finished_bets_amount := none
    finished_bets_pnl := none
    best_trade_roi_proc := none
    best_trade_roi_amount := none
    worst_trade_roi_proc := none
    worst_trade_roi_amount := none
    where_trader_bets_most := none }

/-- The TRADER_TYPE branch of the extraction loop: append the extracted
label when it is non-empty and not already present. -/
def pushTraderType (ts : List String) (m : MessageData) : List String :=
  match _extract_trader_type m with
  | some x => if x = "" then ts else if ts.contains x then ts else ts ++ [x]
  | none => ts

/-- One arm of the `elif` chain of `parse_user_messages`: fold one
classified message into the record.  Tags whose branches are commented out
in the source (descriptions, tables, charts, the catch-all) leave the
record unchanged. -/
def updateRecord (r : UserRecord) (t : UserMessageType) (m : MessageData) :
    UserRecord :=
  match t with
  | UserMessageType.TRADER_TYPE =>
    { r with trader_types := pushTraderType r.trader_types m }
  | UserMessageType.STATS_TOTAL_POSITIONS =>
    { r with total_positions := _extract_total_positions m }
  | UserMessageType.STATS_ACTIVE_SINCE =>
    { r with
        active_since_date := (_extract_active_since m).1,
        active_since_days := (_extract_active_since m).2 }
  | UserMessageType.STATS_CURRENT_BALANCE =>
    { r with current_balance := _extract_current_balance m }
  | UserMessageType.VIEW_ON_POLYMARKET =>
    { r with polymarket_url := _extract_polymarket_url m }
  | UserMessageType.RANK_1D =>
    { r with
        rank_1d_place := (_extract_rank m).1,
        rank_1d_amount := (_extract_rank m).2 }
  | UserMessageType.RANK_7D =>
    { r with
        rank_7d_place := (_extract_rank m).1,
        rank_7d_amount := (_extract_rank m).2 }
  | UserMessageType.RANK_30D =>
    { r with
        rank_30d_place := (_extract_rank m).1,
        rank_30d_amount := (_extract_rank m).2 }
  | UserMessageType.RANK_ALLTIME =>
    { r with
        rank_all_time_place := (_extract_rank m).1,
        rank_all_time_amount := (_extract_rank m).2 }
  | UserMessageType.SMART_SCORE_SUMMARY =>
    { r with
        smart_score := (_extract_smart_score_summary m).1,
        total_pnl := (_extract_smart_score_summary m).2 }
  | UserMessageType.SHARPE_RATIO =>
    { r with sharpe_ratio := _extract_sharpe_ratio m }
  | UserMessageType.TRADED_VOLUME_30D =>
    { r with traded_usd_volume_last_30d_sum := _extract_traded_volume m }
  | UserMessageType.ACTIVE_BETS_SUM =>
    { r with
        active_bets_amount := (_extract_active_bets_sum m).1,
        active_bets_pnl := (_extract_active_bets_sum m).2 }
  | UserMessageType.FINISHED_BETS_SUM =>
    { r with
        finished_bets_amount := (_extract_finished_bets_sum m).1,
        finished_bets_pnl := (_extract_finished_bets_sum m).2 }
  | UserMessageType.BEST_TRADE =>
    { r with
        best_trade_roi_proc := (_extract_trade_data m).1,
        best_trade_roi_amount := (_extract_trade_data m).2 }
  | UserMessageType.WORST_TRADE =>
    { r with
        worst_trade_roi_proc := (_extract_trade_data m).1,
        worst_trade_roi_amount := (_extract_trade_data m).2 }
  | UserMessageType.WHERE_TRADER_BETS_MOST =>
    { r with where_trader_bets_most := _extract_price_buckets m }
  | _ => r

/-- One iteration of the extraction loop of `parse_user_messages`: classify
the message through the shared classifier and fold it into the record. -/
def parseStep (rs : UserRecord × ClassifierState) (m : MessageData) :
    UserRecord × ClassifierState :=
  let (cm, s') := classifyMessage rs.2 m
  (updateRecord rs.1 cm.message_type m, s')

/-- `AnalyzeUserDataParser.parse_user_messages` with the classifier state of
the parser instance threaded explicitly: a fresh record is built per call,
but the classifier state is whatever the instance carries. -/
def parseUserMessagesRun (s : ClassifierState) (msgs : List MessageData) :
    UserRecord × ClassifierState :=
  msgs.foldl parseStep (initUserRecord, s)

/-- `parse_user_messages` on a freshly constructed parser. -/
def parse_user_messages (msgs : List MessageData) : UserRecord :=
  (parseUserMessagesRun initClassifierState msgs).1

/-- Two consecutive `parse_user_messages` calls on the same parser instance:
the second run starts from the classifier state the first run left behind.
Returns both records. -/
def parseTwiceSameParser (msgs : List MessageData) : UserRecord × UserRecord :=
  let first := parseUserMessagesRun initClassifierState msgs
  let second := parseUserMessagesRun first.2 msgs
  (first.1, second.1)

/-- A two-frame dump on which a second same-parser run differs: a rank
frame and a total-positions frame.  The first run tags them RANK_1D and
RANK_7D; the classifier state left behind (`last = RANK_1D`, counter 1)
makes the second run tag them RANK_30D and RANK_ALLTIME. -/
def msgsC2 : List MessageData :=
  [mdMsg (">Rank: #5"), mdMsg (">Total Positions<x>42</div>")]

/-- The record aggregation over an already-classified message sequence: the
extraction loop of `parse_user_messages` viewed as a fold of `updateRecord`
over (tag, frame) pairs, from the freshly initialised record. -/
def mergeClassified (ps : List (UserMessageType × MessageData)) : UserRecord :=
  ps.foldl (fun r p => updateRecord r p.1 p.2) initUserRecord

/-- Lookup in the bucket map of the record. -/
def lookupBucket (k : JsonKey) (o : Option (List (JsonKey × ℚ))) : Option ℚ :=
  o.bind (fun l => (l.find? (fun e => decide (e.1 = k))).map (fun e => e.2))

/-- A frame carrying only a plotly chart with the given spec text. -/
def chartMsg (spec : String) : MessageData :=
  let ne := { NewElement.empty with plotlyChart := some ({ spec := spec }) }
  { delta := some ({ newElement := some ne }),
    metadata := none,
    scriptFinished := none }

/-- A chart frame whose spec yields the single bucket `"a" ↦ 7`. -/
def bucketMsgA : MessageData :=
  chartMsg ("\x7b\"data\": [\x7b\"x\": [\"a\"], \"y\": [7]\x7d]\x7d")

/-- A frame with no chart at all: its bucket extraction yields nothing. -/
def bucketMsgNone : MessageData :=
  { delta := none, metadata := none, scriptFinished := none }

/-- The map-accumulation reading of the claim: the category-metrics map
field accumulates values across messages instead of being overwritten, so a
bucket entry present in the record survives a later message of the same
tag. -/
def c5MapAccumClaim : Prop :=
  ∀ (ps : List (UserMessageType × MessageData))
    (p : UserMessageType × MessageData),
    p.1 = UserMessageType.WHERE_TRADER_BETS_MOST →
    ∀ (k : JsonKey) (v : ℚ),
      lookupBucket k (mergeClassified ps).where_trader_bets_most = some v →
      ∃ v2, lookupBucket k
        (mergeClassified (ps ++ [p])).where_trader_bets_most = some v2

/-- `PooledConnection`: pool bookkeeping around one client.  Clients are
identified by `cid` (object identity in the source); `connected` models
`client.is_connected`; times are integral clock readings. -/
structure PooledConn where
  cid : Nat
  connected : Bool
  in_use : Bool
  created_at : Int
  last_used : Int
  deriving DecidableEq

/-- The mutable state of `HashdiveConnectionPool`: the connection list plus
a counter supplying fresh client identities. -/
structure PoolState where
  connections : List PooledConn
  nextId : Nat
  deriving DecidableEq

/-- The pool as constructed: no connections. -/
def initPoolState : PoolState :=
  { connections := [], nextId := 0 }

/-- The reuse loop of `get_connection`: iterate with a live index the way a
Python `for` iterates the mutated list — when `_cleanup_connection` removes
the current element, the iterator's next step lands two elements further in
the original list.  A fresh idle connected entry is marked in use and
returned; an idle connected entry past the TTL is removed (its client is
disconnected and dropped).  Fuel-driven; the fuel is at least the list
length. -/
def getLoop (ttl now : Int) : Nat → Nat → List PooledConn →
    Option Nat × List PooledConn
  | 0, _, conns => (none, conns)
  | fuel + 1, k, conns =>
    if h : k < conns.length then
      if (conns.get ⟨k, h⟩).in_use = false ∧ (conns.get ⟨k, h⟩).connected = true then
        if now - (conns.get ⟨k, h⟩).last_used < ttl then
          (some (conns.get ⟨k, h⟩).cid,
            conns.set k
              { cid := (conns.get ⟨k, h⟩).cid,
                connected := (conns.get ⟨k, h⟩).connected,
                in_use := true,
                created_at := (conns.get ⟨k, h⟩).created_at,
                last_used := now })
        else
          getLoop ttl now fuel (k + 1) (conns.eraseIdx k)
      else
        getLoop ttl now fuel (k + 1) conns
    else (none, conns)

/-- `HashdiveConnectionPool.get_connection` (under the pool lock): reuse a
fresh idle connection if any, else create a new one when capacity remains
and the transport connect succeeds (`canConnect`), else return none. -/
def getConnection (maxC : Nat) (ttl : Int) (now : Int) (canConnect : Bool)
    (s : PoolState) : Option Nat × PoolState :=
  match getLoop ttl now s.connections.length 0 s.connections with
  | (some cid, conns2) =>
    (some cid, { connections := conns2, nextId := s.nextId })
  | (none, conns2) =>
    if conns2.length < maxC then
      if canConnect then
        (some s.nextId,
          { connections := conns2 ++
              [{ cid := s.nextId, connected := true, in_use := true,
                 created_at := now, last_used := now }],
            nextId := s.nextId + 1 })
      else (none, { connections := conns2, nextId := s.nextId })
    else (none, { connections := conns2, nextId := s.nextId })

/-- The body of `release_connection`: mark the first entry owning the given
client idle and stamp its last-used time; an unknown client is a no-op. -/
def releaseList (now : Int) (cid : Nat) : List PooledConn → List PooledConn
  | [] => []
  | c :: t =>
    if c.cid = cid then
      { cid := c.cid, connected := c.connected, in_use := false,
        created_at := c.created_at, last_used := now } :: t
    else c :: releaseList now cid t

/-- `HashdiveConnectionPool.release_connection` (under the pool lock). -/
def releaseConnection (now : Int) (cid : Nat) (s : PoolState) : PoolState :=
  { connections := releaseList now cid s.connections, nextId := s.nextId }

/-- `HashdiveConnectionPool.cleanup_expired_connections` (under the pool
lock): evict idle entries strictly past the TTL. -/
def cleanupExpired (ttl now : Int) (s : PoolState) : PoolState :=
  { connections :=
      s.connections.filter
        (fun c => !(!c.in_use && decide (ttl < now - c.last_used))),
    nextId := s.nextId }

/-- `HashdiveConnectionPool.close_all`: disconnect and drop everything. -/
def closeAllPool (s : PoolState) : PoolState :=
  { connections := [], nextId := s.nextId }

/-- The pool operations a caller can perform. -/
inductive PoolOp where
  | lease (now : Int) (canConnect : Bool)
  | release (cid : Nat) (now : Int)
  | sweep (now : Int)
  | closeAll
  deriving DecidableEq

/-- Apply one pool operation to the state. -/
def applyOp (maxC : Nat) (ttl : Int) (s : PoolState) : PoolOp → PoolState
  | PoolOp.lease now cc => (getConnection maxC ttl now cc s).2
  | PoolOp.release cid now => releaseConnection now cid s
  | PoolOp.sweep now => cleanupExpired ttl now s
  | PoolOp.closeAll => closeAllPool s

/-- The pool state reached by a sequence of operations from the fresh
pool. -/
def runOps (maxC : Nat) (ttl : Int) (ops : List PoolOp) : PoolState :=
  ops.foldl (applyOp maxC ttl) initPoolState

/-- The pool invariant of the specification: at most `max_connections`
entries, pairwise distinct client identities, all identities already
issued by the freshness counter. -/
def PoolInv (maxC : Nat) (s : PoolState) : Prop :=
  s.connections.length ≤ maxC ∧
  (s.connections.map (fun c => c.cid)).Nodup ∧
  ∀ c ∈ s.connections, c.cid < s.nextId

/-- A leased connected pool entry with identity 0 (concrete example). -/
def cW0 : PooledConn :=
  { cid := 0, connected := true, in_use := true, created_at := 0, last_used := 0 }

/-- A leased connected pool entry with identity 1 (concrete example). -/
def cW1 : PooledConn :=
  { cid := 1, connected := true, in_use := true, created_at := 0, last_used := 0 }

/-- A full two-slot pool, both entries leased (concrete example). -/
def poolW : PoolState := { connections := [cW0, cW1], nextId := 2 }

/-- The pool state after one successful create-lease followed by a second
create-lease at time 1 (concrete example). -/
def poolW7 : PoolState :=
  { connections :=
      [{ cid := 0, connected := true, in_use := true, created_at := 0,
         last_used := 0 },
       { cid := 1, connected := true, in_use := true, created_at := 1,
         last_used := 1 }],
    nextId := 2 }

/-- One loop iteration's environment for `receive_messages`: the clock
reading minus the start time at the top of the iteration, the
`is_connected` answer at the pre-receive check, the `receive_message`
result, the `is_connected` answer at the ping guard, and the `ping`
result. -/
structure RecvEntry where
  elapsed : Int
  connTop : Bool
  outcome : Option Nat
  connAfter : Bool
  pingOk : Bool
  deriving DecidableEq

/-- Why `receive_messages` left its loop. -/
inductive StopReason where
  | maxFrames
  | totalTimeout
  | closed
  | tooManyFailures
  | pingFailed
  deriving DecidableEq

/-- `if max_messages and message_count >= max_messages` with Python
truthiness of the optional limit (`None` and `0` are falsy). -/
def maxReached : Option Nat → Nat → Bool
  | none, _ => false
  | some n, count => decide (n ≠ 0) && decide (n ≤ count)

/-- `if total_timeout:` followed by `elapsed >= total_timeout`, with Python
truthiness of the optional limit (`None` and `0` are falsy). -/
def totalElapsed : Option Int → Int → Bool
  | none, _ => false
  | some t, elapsed => decide (t ≠ 0) && decide (t ≤ elapsed)

/-- The loop of `HashdiveWSClient.receive_messages`, with the connection
present: consumes one environment entry per iteration, accumulates the
yielded messages (reversed), and reports the yielded list, the final
message count and the stop reason (`none` when the supplied environment
ran out with the loop still live).  `max_consecutive_failures` is the
source's literal 3; the third consecutive empty receive breaks before the
ping guard runs. -/
def receiveMessagesRun (maxM : Option Nat) (totalT : Option Int) :
    List RecvEntry → Nat → Nat → List Nat →
      List Nat × Nat × Option StopReason
  | [], count, _, acc => (acc.reverse, count, none)
  | e :: rest, count, fails, acc =>
    if maxReached maxM count = true then
      (acc.reverse, count, some StopReason.maxFrames)
    else if totalElapsed totalT e.elapsed = true then
      (acc.reverse, count, some StopReason.totalTimeout)
    else if e.connTop = false then
      (acc.reverse, count, some StopReason.closed)
    else
      match e.outcome with
      | none =>
        if 3 ≤ fails + 1 then
          (acc.reverse, count, some StopReason.tooManyFailures)
        else if e.connAfter = true ∧ e.pingOk = false then
          (acc.reverse, count, some StopReason.pingFailed)
        else
          receiveMessagesRun maxM totalT rest count (fails + 1) acc
      | some m =>
        receiveMessagesRun maxM totalT rest (count + 1) 0 (m :: acc)

/-- `receive_messages` from its initial counters. -/
def receiveMessages (maxM : Option Nat) (totalT : Option Int)
    (entries : List RecvEntry) : List Nat × Nat × Option StopReason :=
  receiveMessagesRun maxM totalT entries 0 0 []

/-- The retry loop of `HashdiveWSClient.connect` from attempt index `att`
with `remaining` range members left: `env` tells whether the transport
connect of a given attempt index succeeds (a timeout or exception models
as `false`).  Returns the final success flag, the number of attempts
consumed, and the backoff sleeps performed, in order.  Sleeps happen only
before retry attempts (`attempt > 0`), of length `retry_delay * attempt`
(modelled as an exact rational). -/
def connectLoop (retryDelay : ℚ) (env : Nat → Bool) :
    Nat → Nat → Bool × Nat × List ℚ
  | 0, _ => (false, 0, [])
  | remaining + 1, att =>
    if env att = true then
      (true, 1, if 0 < att then [retryDelay * att] else [])
    else
      ((connectLoop retryDelay env remaining (att + 1)).1,
       (connectLoop retryDelay env remaining (att + 1)).2.1 + 1,
       (if 0 < att then [retryDelay * att] else []) ++
         (connectLoop retryDelay env remaining (att + 1)).2.2)

/-- `HashdiveWSClient.connect`: the retry loop over
`range(max_retries)`. -/
def wsConnect (retryDelay : ℚ) (maxRetries : Nat) (env : Nat → Bool) :
    Bool × Nat × List ℚ :=
  connectLoop retryDelay env maxRetries 0

/-- The message loop of `MultiUserFetcher.fetch_user_data` combined with
the frame cap of `receive_messages(max_messages=...)`: `frames` lists the
decode outcome of each socket message the server would send (`none` for a
frame that fails to decode), the generator stops yielding at `maxM`
messages, the counter increments for every yielded message, decoded frames
are collected, and a decoded frame whose `scriptFinished` equals
`FINISHED_SUCCESSFULLY` breaks the loop after being collected. -/
def fetchUserLoop (maxM : Nat) :
    List (Option MessageData) → Nat → List MessageData →
      Nat × List MessageData
  | [], count, acc => (count, acc.reverse)
  | d :: rest, count, acc =>
    if maxM ≤ count then (count, acc.reverse)
    else
      match d with
      | some dec =>
        if dec.scriptFinished = some ("FINISHED_SUCCESSFULLY") then
          (count + 1, (dec :: acc).reverse)
        else
          fetchUserLoop maxM rest (count + 1) (dec :: acc)
      | none => fetchUserLoop maxM rest (count + 1) acc

/-- `fetch_user_data` from its initial counters. -/
def fetchUserData (maxM : Nat) (frames : List (Option MessageData)) :
    Nat × List MessageData :=
  fetchUserLoop maxM frames 0 []

/-- A decoded frame with no payload and no terminal signal (concrete
example). -/
def plainMsg : MessageData :=
  { delta := none, metadata := none, scriptFinished := none }

/-- A decoded frame carrying the terminal signal (concrete example). -/
def termMsg : MessageData :=
  { delta := none, metadata := none,
    scriptFinished := some ("FINISHED_SUCCESSFULLY") }

/-- The tag RANK_1D is only ever produced by the ranked-window trigger
signature: whatever the prior state, a frame tagged RANK_1D contains
`>Rank: ` in its content. -/
theorem contentChainD_ne_rank1d (s : ClassifierState) (c : String) :
    (contentChainD s c).1 ≠ UserMessageType.RANK_1D := by
  unfold contentChainD
  repeat' split
  all_goals simp

theorem contentChainC_ne_rank1d (s : ClassifierState) (c : String) :
    (contentChainC s c).1 ≠ UserMessageType.RANK_1D := by
  unfold contentChainC
  repeat' split
  all_goals first
    | exact contentChainD_ne_rank1d _ _
    | simp

theorem contentChainB_rank1d (s : ClassifierState) (c : String)
    (h : (contentChainB s c).1 = UserMessageType.RANK_1D) :
    strContains c (">Rank: ") = true := by
  unfold contentChainB at h
  repeat' split at h
  all_goals first
    | assumption
    | exact absurd h (contentChainC_ne_rank1d _ _)
    | exact absurd h (by simp)

theorem contentPhase_rank1d (s : ClassifierState) (c : String)
    (h : (contentPhase s c).1 = UserMessageType.RANK_1D) :
    strContains c (">Rank: ") = true := by
  unfold contentPhase at h
  repeat' split at h
  all_goals first
    | exact contentChainB_rank1d _ _ h
    | exact absurd h (by simp)

theorem rankPhase_rank1d (s : ClassifierState) (c : String)
    (h : (rankPhase s c).1 = UserMessageType.RANK_1D) :
    strContains c (">Rank: ") = true := by
  simp only [rankPhase] at h
  repeat' split at h
  · simp at h
  · simp at h
  · simp at h
  · exact contentPhase_rank1d _ _ h
  · exact contentPhase_rank1d _ _ h

theorem finishedPhase_rank1d (s : ClassifierState) (ne : NewElement) (c : String)
    (h : (finishedPhase s ne c).1 = UserMessageType.RANK_1D) :
    strContains c (">Rank: ") = true := by
  simp only [finishedPhase] at h
  repeat' split at h
  · simp at h
  · exact rankPhase_rank1d _ _ h
  · exact rankPhase_rank1d _ _ h

theorem rank1d_needs_trigger (s : ClassifierState) (m : MessageData)
    (h : (identifyMessageType s m).1 = UserMessageType.RANK_1D) :
    strContains (extractContent m.newElement) (">Rank: ") = true := by
  simp only [identifyMessageType] at h
  repeat' split at h
  · simp at h
  · simp at h
  · exact finishedPhase_rank1d _ _ _ h
  · exact finishedPhase_rank1d _ _ _ h

/-- C3: from a fresh classifier state, four structurally identical frames of
the ranked-window family — each carrying the ranked-window trigger content
`>Rank: ` (and none of the content signatures tested before it) — are tagged
1-day, 7-day, 30-day, all-time in that order, and the counter is reset so
that a fifth unrelated frame (one without the trigger content) is not tagged
1-day again. -/
theorem c3_rank_window (m m5 : MessageData)
    (hR : strContains (extractContent m.newElement) (">Rank: ") = true)
    (h1 : strContains (extractContent m.newElement) (":material/") = false)
    (h2 : strContains (extractContent m.newElement) (">Total Positions<") = false)
    (h3 : strContains (extractContent m.newElement) (">Active Since<") = false)
    (h4 : strContains (extractContent m.newElement) ("Current Balance\n") = false)
    (h5 : strContains (extractContent m.newElement) (">Current Balance<") = false)
    (h6 : strContains (extractContent m.newElement)
        ("<a href=\"https://polymarket.com/profile/") = false)
    (h7 : strContains (extractContent m5.newElement) (">Rank: ") = false) :
    (classifyList initClassifierState [m, m, m, m, m5]).1 =
      [UserMessageType.RANK_1D, UserMessageType.RANK_7D, UserMessageType.RANK_30D,
        UserMessageType.RANK_ALLTIME, (identifyMessageType initClassifierState m5).1]
    ∧ (identifyMessageType initClassifierState m5).1 ≠ UserMessageType.RANK_1D := by
  have e1 : identifyMessageType initClassifierState m =
      (UserMessageType.RANK_1D,
        { last_message_type := some UserMessageType.RANK_1D, rank_sequence_count := 0,
          active_bets_seen := false, finished_bets_seen := false }) := by
    unfold identifyMessageType finishedPhase rankPhase contentPhase contentChainB
    simp [initClassifierState, hR, h1, h2, h3, h4, h5, h6]
  have e2 : identifyMessageType
      ({ last_message_type := some UserMessageType.RANK_1D, rank_sequence_count := 0,
          active_bets_seen := false, finished_bets_seen := false }) m =
      (UserMessageType.RANK_7D,
        { last_message_type := some UserMessageType.RANK_1D, rank_sequence_count := 1,
          active_bets_seen := false, finished_bets_seen := false }) := by
    unfold identifyMessageType finishedPhase rankPhase
    simp
  have e3 : identifyMessageType
      ({ last_message_type := some UserMessageType.RANK_1D, rank_sequence_count := 1,
          active_bets_seen := false, finished_bets_seen := false }) m =
      (UserMessageType.RANK_30D,
        { last_message_type := some UserMessageType.RANK_1D, rank_sequence_count := 2,
          active_bets_seen := false, finished_bets_seen := false }) := by
    unfold identifyMessageType finishedPhase rankPhase
    simp
  have e4 : identifyMessageType
      ({ last_message_type := some UserMessageType.RANK_1D, rank_sequence_count := 2,
          active_bets_seen := false, finished_bets_seen := false }) m =
      (UserMessageType.RANK_ALLTIME, initClassifierState) := by
    unfold identifyMessageType finishedPhase rankPhase
    simp [initClassifierState]
  have e5 : (identifyMessageType initClassifierState m5).1 ≠ UserMessageType.RANK_1D := by
    intro hEq
    exact absurd (rank1d_needs_trigger initClassifierState m5 hEq) (by simp [h7])
  refine ⟨?_, e5⟩
  simp [classifyList, e1, e2, e3, e4]

/-- C3 witness: a concrete rank frame and a concrete unrelated frame. -/
theorem c3_rank_window_witness :
    (classifyList initClassifierState
        [mdMsg (">Rank: #1"), mdMsg (">Rank: #1"), mdMsg (">Rank: #1"),
          mdMsg (">Rank: #1"), mdMsg ("hello")]).1 =
      [UserMessageType.RANK_1D, UserMessageType.RANK_7D, UserMessageType.RANK_30D,
        UserMessageType.RANK_ALLTIME,
        (identifyMessageType initClassifierState (mdMsg ("hello"))).1]
    ∧ (identifyMessageType initClassifierState (mdMsg ("hello"))).1
        ≠ UserMessageType.RANK_1D :=
  c3_rank_window (mdMsg (">Rank: #1")) (mdMsg ("hello"))
    (by decide) (by decide) (by decide) (by decide) (by decide) (by decide)
    (by decide) (by decide)

/-- C4: a frame whose content matches no content signature (the shape of a
free-text description) is tagged TRADER_TYPE_DESC when it immediately follows
a frame tagged TRADER_TYPE, while the very same frame classified from a fresh
state (no preceding type-label frame) is tagged UNKNOWN. -/
theorem c4_trader_type_desc (mt d : MessageData)
    (hm : strContains (extractContent mt.newElement) (":material/") = true)
    (hd : matchesNoContentSignature (extractContent d.newElement) = true) :
    (classifyList initClassifierState [mt, d]).1 =
      [UserMessageType.TRADER_TYPE, UserMessageType.TRADER_TYPE_DESC]
    ∧ (identifyMessageType initClassifierState d).1 = UserMessageType.UNKNOWN := by
  simp only [matchesNoContentSignature, Bool.and_eq_true, Bool.not_eq_true,
    Bool.not_eq_true'] at hd
  obtain ⟨⟨⟨⟨⟨⟨⟨⟨⟨⟨⟨⟨⟨⟨⟨⟨⟨⟨⟨⟨k1, k2⟩, k3⟩, k4⟩, k5⟩, k6⟩, k7⟩, k8⟩, k9⟩,
    k10⟩, k11⟩, k12⟩, k13⟩, k14⟩, k15⟩, k16⟩, k17⟩, k18⟩, k19⟩, k20⟩, k21⟩ := hd
  have e1 : identifyMessageType initClassifierState mt =
      (UserMessageType.TRADER_TYPE,
        { last_message_type := some UserMessageType.TRADER_TYPE, rank_sequence_count := 0,
          active_bets_seen := false, finished_bets_seen := false }) := by
    unfold identifyMessageType finishedPhase rankPhase contentPhase
    simp [initClassifierState, hm]
  have e2 : identifyMessageType
      ({ last_message_type := some UserMessageType.TRADER_TYPE, rank_sequence_count := 0,
          active_bets_seen := false, finished_bets_seen := false }) d =
      (UserMessageType.TRADER_TYPE_DESC, initClassifierState) := by
    unfold identifyMessageType
    simp [initClassifierState]
  have e3 : (identifyMessageType initClassifierState d).1 = UserMessageType.UNKNOWN := by
    unfold identifyMessageType finishedPhase rankPhase contentPhase contentChainB
      contentChainC contentChainD
    simp [initClassifierState, k1, k2, k3, k4, k5, k6, k7, k8, k9, k10, k11,
      k12, k13, k14, k15, k16, k17, k18, k19, k20, k21]
  refine ⟨?_, e3⟩
  simp [classifyList, e1, e2]

theorem contentChainD_phaseSpec (s : ClassifierState) (c : String) :
    PhaseSpec s (contentChainD s c) := by
  unfold PhaseSpec contentChainD
  repeat' split
  all_goals simp

theorem contentChainC_phaseSpec (s : ClassifierState) (c : String) :
    PhaseSpec s (contentChainC s c) := by
  unfold PhaseSpec contentChainC
  repeat' split
  all_goals first
    | exact contentChainD_phaseSpec _ _
    | simp

theorem contentChainB_phaseSpec (s : ClassifierState) (c : String) :
    PhaseSpec s (contentChainB s c) := by
  unfold PhaseSpec contentChainB
  repeat' split
  all_goals first
    | exact contentChainC_phaseSpec _ _
    | simp

theorem contentPhase_phaseSpec (s : ClassifierState) (c : String) :
    PhaseSpec s (contentPhase s c) := by
  unfold PhaseSpec contentPhase
  repeat' split
  all_goals first
    | exact contentChainB_phaseSpec _ _
    | simp

theorem rankPhase_phaseSpec (s : ClassifierState) (c : String) :
    PhaseSpec s (rankPhase s c) := by
  unfold PhaseSpec rankPhase
  split
  · split
    · simp
    · split
      · simp
      · split
        · simp
        · exact contentPhase_phaseSpec _ _
  · exact contentPhase_phaseSpec _ _

theorem rankPhase_seenA (s : ClassifierState) (c : String) :
    (rankPhase s c).2.active_bets_seen = s.active_bets_seen :=
  (rankPhase_phaseSpec s c).1

theorem rankPhase_seenF (s : ClassifierState) (c : String) :
    (rankPhase s c).2.finished_bets_seen = s.finished_bets_seen :=
  (rankPhase_phaseSpec s c).2.1

theorem rankPhase_ne_tableA (s : ClassifierState) (c : String) :
    (rankPhase s c).1 ≠ UserMessageType.ACTIVE_BETS_TABLE :=
  (rankPhase_phaseSpec s c).2.2.2.2.2.2.1

theorem rankPhase_ne_tableF (s : ClassifierState) (c : String) :
    (rankPhase s c).1 ≠ UserMessageType.FINISHED_BETS_TABLE :=
  (rankPhase_phaseSpec s c).2.2.2.2.2.2.2

/-- The evolution of the one-shot active-bets flag over one classifier step:
it is set exactly when a frame is processed while ACTIVE_BETS_SUM was the
remembered tag, and it is never cleared. -/
theorem identify_seenA (s : ClassifierState) (m : MessageData) :
    (identifyMessageType s m).2.active_bets_seen =
      (s.active_bets_seen
        || decide (s.last_message_type = some UserMessageType.ACTIVE_BETS_SUM)) := by
  unfold identifyMessageType finishedPhase
  repeat' split
  all_goals simp_all [rankPhase_seenA]

/-- The evolution of the one-shot finished-bets flag over one classifier
step. -/
theorem identify_seenF (s : ClassifierState) (m : MessageData) :
    (identifyMessageType s m).2.finished_bets_seen =
      (s.finished_bets_seen
        || decide (s.last_message_type = some UserMessageType.FINISHED_BETS_SUM)) := by
  unfold identifyMessageType finishedPhase
  repeat' split
  all_goals simp_all [rankPhase_seenF]

/-- A frame is tagged ACTIVE_BETS_TABLE exactly when the remembered tag is
ACTIVE_BETS_SUM, the one-shot flag is still clear, and the frame carries an
arrowDataFrame element. -/
theorem identify_tableA_iff (s : ClassifierState) (m : MessageData) :
    (identifyMessageType s m).1 = UserMessageType.ACTIVE_BETS_TABLE ↔
      (s.last_message_type = some UserMessageType.ACTIVE_BETS_SUM
        ∧ s.active_bets_seen = false
        ∧ m.newElement.arrowDataFrame.isSome = true) := by
  unfold identifyMessageType finishedPhase
  repeat' split
  all_goals simp_all [rankPhase_ne_tableA]

/-- A frame is tagged FINISHED_BETS_TABLE exactly when the remembered tag is
FINISHED_BETS_SUM, the one-shot flag is still clear, and the frame carries an
arrowDataFrame element. -/
theorem identify_tableF_iff (s : ClassifierState) (m : MessageData) :
    (identifyMessageType s m).1 = UserMessageType.FINISHED_BETS_TABLE ↔
      (s.last_message_type = some UserMessageType.FINISHED_BETS_SUM
        ∧ s.finished_bets_seen = false
        ∧ m.newElement.arrowDataFrame.isSome = true) := by
  unfold identifyMessageType finishedPhase
  repeat' split
  all_goals simp_all [rankPhase_ne_tableF]

/-- One classifier step lands in one of six shapes: the trader-type
description, one of the two table returns, or the rank/content chain applied
to the state left by the branch that fired (flag consumed and last tag
cleared) or to the unchanged state. -/
theorem identify_cases (s : ClassifierState) (m : MessageData) :
    identifyMessageType s m =
        (UserMessageType.TRADER_TYPE_DESC, { s with last_message_type := none })
    ∨ identifyMessageType s m =
        (UserMessageType.ACTIVE_BETS_TABLE,
          { s with active_bets_seen := true, last_message_type := none })
    ∨ identifyMessageType s m =
        (UserMessageType.FINISHED_BETS_TABLE,
          { s with finished_bets_seen := true, last_message_type := none })
    ∨ identifyMessageType s m =
        rankPhase ({ s with active_bets_seen := true, last_message_type := none })
          (extractContent m.newElement)
    ∨ identifyMessageType s m =
        rankPhase ({ s with finished_bets_seen := true, last_message_type := none })
          (extractContent m.newElement)
    ∨ identifyMessageType s m = rankPhase s (extractContent m.newElement) := by
  unfold identifyMessageType finishedPhase
  repeat' split
  all_goals simp_all

/-- A frame tagged ACTIVE_BETS_SUM leaves ACTIVE_BETS_SUM as the remembered
tag. -/
theorem identify_absTag (s : ClassifierState) (m : MessageData)
    (h : (identifyMessageType s m).1 = UserMessageType.ACTIVE_BETS_SUM) :
    (identifyMessageType s m).2.last_message_type =
      some UserMessageType.ACTIVE_BETS_SUM := by
  rcases identify_cases s m with e | e | e | e | e | e <;> rw [e] at h ⊢
  any_goals exact (rankPhase_phaseSpec _ _).2.2.1 h
  all_goals simp_all

/-- A frame tagged FINISHED_BETS_SUM leaves FINISHED_BETS_SUM as the
remembered tag. -/
theorem identify_fbsTag (s : ClassifierState) (m : MessageData)
    (h : (identifyMessageType s m).1 = UserMessageType.FINISHED_BETS_SUM) :
    (identifyMessageType s m).2.last_message_type =
      some UserMessageType.FINISHED_BETS_SUM := by
  rcases identify_cases s m with e | e | e | e | e | e <;> rw [e] at h ⊢
  any_goals exact (rankPhase_phaseSpec _ _).2.2.2.2.1 h
  all_goals simp_all

/-- If ACTIVE_BETS_SUM was not the remembered tag before the step but is
after it, the step tagged the frame ACTIVE_BETS_SUM. -/
theorem identify_absLast (s : ClassifierState) (m : MessageData)
    (hpre : s.last_message_type ≠ some UserMessageType.ACTIVE_BETS_SUM)
    (hpost : (identifyMessageType s m).2.last_message_type =
      some UserMessageType.ACTIVE_BETS_SUM) :
    (identifyMessageType s m).1 = UserMessageType.ACTIVE_BETS_SUM := by
  rcases identify_cases s m with e | e | e | e | e | e <;> rw [e] at hpost ⊢
  case _ => simp_all
  case _ => simp_all
  case _ => simp_all
  all_goals
    rcases (rankPhase_phaseSpec _ _).2.2.2.1 hpost with hc | hc <;> simp_all

/-- If FINISHED_BETS_SUM was not the remembered tag before the step but is
after it, the step tagged the frame FINISHED_BETS_SUM. -/
theorem identify_fbsLast (s : ClassifierState) (m : MessageData)
    (hpre : s.last_message_type ≠ some UserMessageType.FINISHED_BETS_SUM)
    (hpost : (identifyMessageType s m).2.last_message_type =
      some UserMessageType.FINISHED_BETS_SUM) :
    (identifyMessageType s m).1 = UserMessageType.FINISHED_BETS_SUM := by
  rcases identify_cases s m with e | e | e | e | e | e <;> rw [e] at hpost ⊢
  case _ => simp_all
  case _ => simp_all
  case _ => simp_all
  all_goals
    rcases (rankPhase_phaseSpec _ _).2.2.2.2.2.1 hpost with hc | hc <;> simp_all

/-- C4 witness: a concrete type-label frame followed by a concrete plain
markdown frame. -/
theorem c4_trader_type_desc_witness :
    (classifyList initClassifierState
        [mdMsg (":material/star [Contrarian]"), mdMsg ("a plain description")]).1 =
      [UserMessageType.TRADER_TYPE, UserMessageType.TRADER_TYPE_DESC]
    ∧ (identifyMessageType initClassifierState (mdMsg ("a plain description"))).1
        = UserMessageType.UNKNOWN :=
  c4_trader_type_desc (mdMsg (":material/star [Contrarian]"))
    (mdMsg ("a plain description")) (by decide) (by decide)

theorem catInv_step (flag : ClassifierState → Bool) (sumT tableT : UserMessageType)
    (hseen : ∀ s m, flag (identifyMessageType s m).2
      = (flag s || decide (s.last_message_type = some sumT)))
    (htable : ∀ s m, ((identifyMessageType s m).1 = tableT ↔
      (s.last_message_type = some sumT ∧ flag s = false
        ∧ m.newElement.arrowDataFrame.isSome = true)))
    (hsum : ∀ s m, (identifyMessageType s m).1 = sumT →
      (identifyMessageType s m).2.last_message_type = some sumT)
    (hlast : ∀ s m, s.last_message_type ≠ some sumT →
      (identifyMessageType s m).2.last_message_type = some sumT →
      (identifyMessageType s m).1 = sumT)
    (s : ClassifierState) (ts : List UserMessageType) (ms : List MessageData)
    (m : MessageData)
    (inv : CatInv flag sumT tableT s ts ms) :
    CatInv flag sumT tableT (identifyMessageType s m).2
      (ts ++ [(identifyMessageType s m).1]) (ms ++ [m]) := by
  obtain ⟨hlen, hI1, hI2, hI3, hI4⟩ := inv
  have flagEq := hseen s m
  refine ⟨by simp [hlen], ?_, ?_, ?_, ?_⟩
  · constructor
    · intro hf
      rw [flagEq] at hf
      simp only [Bool.or_eq_true, decide_eq_true_eq] at hf
      rcases hf with hf | hlastEq
      · obtain ⟨j, hj, hg⟩ := hI1.mp hf
        exact ⟨j, by simp; omega, by rw [List.get?_append (by omega)]; exact hg⟩
      · by_cases hfs : flag s = true
        · obtain ⟨j, hj, hg⟩ := hI1.mp hfs
          exact ⟨j, by simp; omega, by rw [List.get?_append (by omega)]; exact hg⟩
        · have h2 := (hI2 (by simpa using hfs)).mp hlastEq
          have hneNil : ts ≠ [] := by
            intro hE
            rw [hE] at h2
            simp at h2
          have hpos : 0 < ts.length := List.length_pos.mpr hneNil
          refine ⟨ts.length - 1, by simp; omega, ?_⟩
          rw [List.get?_append (by omega), ← List.getLast?_eq_get?]
          exact h2
    · rintro ⟨j, hj, hg⟩
      have hjlen : j < ts.length := by simp at hj; omega
      rw [List.get?_append hjlen] at hg
      rw [flagEq]
      by_cases hj1 : j + 1 < ts.length
      · have : flag s = true := hI1.mpr ⟨j, hj1, hg⟩
        simp [this]
      · have hjeq : j = ts.length - 1 := by omega
        by_cases hfs : flag s = true
        · simp [hfs]
        · have hlastTs : ts.getLast? = some sumT := by
            rw [List.getLast?_eq_get?, ← hjeq]
            exact hg
          have : s.last_message_type = some sumT :=
            (hI2 (by simpa using hfs)).mpr hlastTs
          simp [this]
  · intro hf'
    rw [flagEq] at hf'
    simp only [Bool.or_eq_false_iff, decide_eq_false_iff_not] at hf'
    obtain ⟨hfs, hlastNe⟩ := hf'
    rw [List.getLast?_concat]
    constructor
    · intro hsl
      have : (identifyMessageType s m).1 = sumT := hlast s m hlastNe hsl
      simp [this]
    · intro hts
      simp only [Option.some.injEq] at hts
      exact hsum s m hts
  · rw [List.countP_append]
    by_cases htT : (identifyMessageType s m).1 = tableT
    · obtain ⟨hl, hf, _⟩ := (htable s m).mp htT
      have hzero : List.countP (fun x => decide (x = tableT)) ts = 0 := by
        rw [List.countP_eq_zero]
        intro a ha hpa
        simp only [decide_eq_true_eq] at hpa
        subst hpa
        obtain ⟨i, hgi⟩ := List.mem_iff_get?.mp ha
        obtain ⟨h1, h2, _, _⟩ := hI4 i hgi
        have hiLen : i < ts.length := by
          rcases List.get?_eq_some.mp hgi with ⟨hb, _⟩
          exact hb
        have : flag s = true := hI1.mpr ⟨i - 1, by omega, h2⟩
        rw [this] at hf
        cases hf
      rw [hzero]
      simp [htT]
    · have : List.countP (fun x => decide (x = tableT))
          [(identifyMessageType s m).1] = 0 := by
        simp [htT]
      rw [this]
      simpa using hI3
  · intro i hgi
    have hiBound : i < ts.length + 1 := by
      rcases List.get?_eq_some.mp hgi with ⟨hb, _⟩
      simpa using hb
    rcases Nat.lt_or_ge i ts.length with hi | hi
    · rw [List.get?_append hi] at hgi
      obtain ⟨h1, h2, h3, m', hm', ha'⟩ := hI4 i hgi
      have hmsLen : i < ms.length := by
        rcases List.get?_eq_some.mp hm' with ⟨hb, _⟩
        exact hb
      refine ⟨h1, ?_, ?_, ⟨m', ?_, ha'⟩⟩
      · rw [List.get?_append (by omega)]
        exact h2
      · intro j hj
        rw [List.get?_append (by omega)]
        exact h3 j hj
      · rw [List.get?_append hmsLen]
        exact hm'
    · have hieq : i = ts.length := by omega
      subst hieq
      rw [List.get?_concat_length] at hgi
      simp only [Option.some.injEq] at hgi
      obtain ⟨hl, hf, harr⟩ := (htable s m).mp hgi
      have hlastTs : ts.getLast? = some sumT := (hI2 hf).mp hl
      have hneNil : ts ≠ [] := by
        intro hE
        rw [hE] at hlastTs
        simp at hlastTs
      have hpos : 0 < ts.length := List.length_pos.mpr hneNil
      refine ⟨hpos, ?_, ?_, ⟨m, ?_, harr⟩⟩
      · rw [List.get?_append (by omega), ← List.getLast?_eq_get?]
        exact hlastTs
      · intro j hj hgj
        rw [List.get?_append (by omega)] at hgj
        have : flag s = true := hI1.mpr ⟨j, by omega, hgj⟩
        rw [this] at hf
        cases hf
      · rw [hlen, List.get?_concat_length]

theorem catInv_run (flag : ClassifierState → Bool) (sumT tableT : UserMessageType)
    (hseen : ∀ s m, flag (identifyMessageType s m).2
      = (flag s || decide (s.last_message_type = some sumT)))
    (htable : ∀ s m, ((identifyMessageType s m).1 = tableT ↔
      (s.last_message_type = some sumT ∧ flag s = false
        ∧ m.newElement.arrowDataFrame.isSome = true)))
    (hsum : ∀ s m, (identifyMessageType s m).1 = sumT →
      (identifyMessageType s m).2.last_message_type = some sumT)
    (hlast : ∀ s m, s.last_message_type ≠ some sumT →
      (identifyMessageType s m).2.last_message_type = some sumT →
      (identifyMessageType s m).1 = sumT) :
    ∀ (msgs : List MessageData) (s : ClassifierState)
      (ts : List UserMessageType) (ms : List MessageData),
      CatInv flag sumT tableT s ts ms →
      CatInv flag sumT tableT (classifyList s msgs).2
        (ts ++ (classifyList s msgs).1) (ms ++ msgs) := by
  intro msgs
  induction msgs with
  | nil =>
    intro s ts ms inv
    simpa [classifyList] using inv
  | cons m rest ih =>
    intro s ts ms inv
    have hstep := catInv_step flag sumT tableT hseen htable hsum hlast s ts ms m inv
    have hrec := ih (identifyMessageType s m).2 (ts ++ [(identifyMessageType s m).1])
      (ms ++ [m]) hstep
    simpa [classifyList, List.append_assoc] using hrec

/-- C10: per category (active and finished bets), at most one frame of a run
is tagged as the table variant; a frame tagged as the table variant is the
immediate successor of the first frame tagged as that category summary and
carries an arrowDataFrame element; and if the immediate successor of the
first summary-tagged frame lacks an arrowDataFrame element, the one-shot
flag is still consumed, so no frame of the run is ever tagged as that
category table variant. -/
theorem c10_one_shot_table (msgs : List MessageData) :
    (List.countP (fun x => decide (x = UserMessageType.ACTIVE_BETS_TABLE))
        (runTags msgs) ≤ 1)
    ∧ (List.countP (fun x => decide (x = UserMessageType.FINISHED_BETS_TABLE))
        (runTags msgs) ≤ 1)
    ∧ (∀ i, (runTags msgs).get? i = some UserMessageType.ACTIVE_BETS_TABLE →
        1 ≤ i
        ∧ (runTags msgs).get? (i - 1) = some UserMessageType.ACTIVE_BETS_SUM
        ∧ (∀ j, j < i - 1 →
            (runTags msgs).get? j ≠ some UserMessageType.ACTIVE_BETS_SUM)
        ∧ (∃ m, msgs.get? i = some m ∧ m.newElement.arrowDataFrame.isSome = true))
    ∧ (∀ i, (runTags msgs).get? i = some UserMessageType.FINISHED_BETS_TABLE →
        1 ≤ i
        ∧ (runTags msgs).get? (i - 1) = some UserMessageType.FINISHED_BETS_SUM
        ∧ (∀ j, j < i - 1 →
            (runTags msgs).get? j ≠ some UserMessageType.FINISHED_BETS_SUM)
        ∧ (∃ m, msgs.get? i = some m ∧ m.newElement.arrowDataFrame.isSome = true))
    ∧ (∀ i, (runTags msgs).get? i = some UserMessageType.ACTIVE_BETS_SUM →
        (∀ j, j < i → (runTags msgs).get? j ≠ some UserMessageType.ACTIVE_BETS_SUM) →
        (∀ m, msgs.get? (i + 1) = some m →
          m.newElement.arrowDataFrame.isSome = false) →
        ∀ k, (runTags msgs).get? k ≠ some UserMessageType.ACTIVE_BETS_TABLE)
    ∧ (∀ i, (runTags msgs).get? i = some UserMessageType.FINISHED_BETS_SUM →
        (∀ j, j < i → (runTags msgs).get? j ≠ some UserMessageType.FINISHED_BETS_SUM) →
        (∀ m, msgs.get? (i + 1) = some m →
          m.newElement.arrowDataFrame.isSome = false) →
        ∀ k, (runTags msgs).get? k ≠ some UserMessageType.FINISHED_BETS_TABLE) := by
  have hbaseA : CatInv (fun st => st.active_bets_seen)
      UserMessageType.ACTIVE_BETS_SUM UserMessageType.ACTIVE_BETS_TABLE
      initClassifierState [] [] := by
    refine ⟨rfl, ?_, ?_, by simp, ?_⟩ <;> simp [initClassifierState]
  have hbaseF : CatInv (fun st => st.finished_bets_seen)
      UserMessageType.FINISHED_BETS_SUM UserMessageType.FINISHED_BETS_TABLE
      initClassifierState [] [] := by
    refine ⟨rfl, ?_, ?_, by simp, ?_⟩ <;> simp [initClassifierState]
  have hA := catInv_run (fun st => st.active_bets_seen)
    UserMessageType.ACTIVE_BETS_SUM UserMessageType.ACTIVE_BETS_TABLE
    identify_seenA identify_tableA_iff identify_absTag identify_absLast
    msgs initClassifierState [] [] hbaseA
  have hF := catInv_run (fun st => st.finished_bets_seen)
    UserMessageType.FINISHED_BETS_SUM UserMessageType.FINISHED_BETS_TABLE
    identify_seenF identify_tableF_iff identify_fbsTag identify_fbsLast
    msgs initClassifierState [] [] hbaseF
  simp only [List.nil_append] at hA hF
  obtain ⟨hlenA, hI1A, hI2A, hI3A, hI4A⟩ := hA
  obtain ⟨hlenF, hI1F, hI2F, hI3F, hI4F⟩ := hF
  refine ⟨hI3A, hI3F, hI4A, hI4F, ?_, ?_⟩
  · intro i hi hfirst hnoarr k hk
    obtain ⟨h1, h2, h3, m', hm', harr⟩ := hI4A k hk
    rcases lt_trichotomy i (k - 1) with hlt | heq | hgt
    · exact h3 i hlt hi
    · have hk1 : k = i + 1 := by omega
      rw [hk1] at hm'
      have hfalse := hnoarr m' hm'
      rw [hfalse] at harr
      exact Bool.noConfusion harr
    · exact hfirst (k - 1) hgt h2
  · intro i hi hfirst hnoarr k hk
    obtain ⟨h1, h2, h3, m', hm', harr⟩ := hI4F k hk
    rcases lt_trichotomy i (k - 1) with hlt | heq | hgt
    · exact h3 i hlt hi
    · have hk1 : k = i + 1 := by omega
      rw [hk1] at hm'
      have hfalse := hnoarr m' hm'
      rw [hfalse] at harr
      exact Bool.noConfusion harr
    · exact hfirst (k - 1) hgt h2

/-- C10 witness: a concrete two-frame run in which the second frame is
tagged as the active-bets table. -/
theorem c10_one_shot_table_witness :
    1 ≤ 1
    ∧ (runTags [absMsgEx, arrowMsgEx]).get? 0
        = some UserMessageType.ACTIVE_BETS_SUM
    ∧ (∀ j, j < 0 →
        (runTags [absMsgEx, arrowMsgEx]).get? j
          ≠ some UserMessageType.ACTIVE_BETS_SUM)
    ∧ (∃ m, [absMsgEx, arrowMsgEx].get? 1 = some m
        ∧ m.newElement.arrowDataFrame.isSome = true) :=
  (c10_one_shot_table [absMsgEx, arrowMsgEx]).2.2.1 1 (by rfl)

/-- C2 counterexample: running `parse_user_messages` twice on the same
parser instance does not always reproduce the record — the classifier state
is not reset at the start of a run.  On `msgsC2` the first run yields
`rank_1d_place = some "#5"` and the second run yields none for that field. -/
theorem c2_counterexample :
    ¬ (∀ msgs : List MessageData,
      (parseTwiceSameParser msgs).2 = (parseTwiceSameParser msgs).1) := by
  intro h
  exact absurd (h msgsC2) (by decide)

/-- C2 (amended): re-running the extraction through the same parser yields
an identical record whenever the first run leaves the classifier back in
its freshly-constructed state; the state is reset only by constructing a
new parser, not at the start of `parse_user_messages`. -/
theorem c2_reset_idempotent (msgs : List MessageData)
    (h : (parseUserMessagesRun initClassifierState msgs).2 = initClassifierState) :
    (parseTwiceSameParser msgs).2 = (parseTwiceSameParser msgs).1 := by
  show (parseUserMessagesRun (parseUserMessagesRun initClassifierState msgs).2 msgs).1
    = (parseUserMessagesRun initClassifierState msgs).1
  rw [h]

/-- C2 witness: a run consisting of a single catch-all frame leaves the
classifier state untouched, so the second same-parser run reproduces the
record. -/
theorem c2_reset_idempotent_witness :
    (parseTwiceSameParser [mdMsg ("hello")]).2
      = (parseTwiceSameParser [mdMsg ("hello")]).1 :=
  c2_reset_idempotent [mdMsg ("hello")] (by decide)

/-- A field updated only on tag `T`, by `g` over its previous value,
accumulates exactly the `T`-tagged messages of the fold, in order. -/
theorem foldl_update_accum {β : Type} (T : UserMessageType)
    (proj : UserRecord → β) (g : β → MessageData → β)
    (hhit : ∀ r m, proj (updateRecord r T m) = g (proj r) m)
    (hmiss : ∀ r t m, t ≠ T → proj (updateRecord r t m) = proj r) :
    ∀ (ps : List (UserMessageType × MessageData)) (r0 : UserRecord),
      proj (ps.foldl (fun r p => updateRecord r p.1 p.2) r0)
        = (ps.filter (fun p => decide (p.1 = T))).foldl
            (fun b p => g b p.2) (proj r0) := by
  intro ps
  induction ps with
  | nil => intro r0; rfl
  | cons p t ih =>
    intro r0
    by_cases hp : p.1 = T
    · simp only [List.foldl_cons, List.filter_cons, hp]
      rw [if_pos (by simp), List.foldl_cons, ih, hhit]
    · simp only [List.foldl_cons, List.filter_cons]
      rw [if_neg (by simpa using hp), ih, hmiss r0 p.1 p.2 hp]

/-- Folding a function that ignores its accumulator keeps only the last
element. -/
theorem foldl_const_last {β : Type} (f : MessageData → β) :
    ∀ (l : List (UserMessageType × MessageData)) (b : β),
      l.foldl (fun _ p => f p.2) b
        = (match l.getLast? with
            | some p => f p.2
            | none => b) := by
  intro l
  induction l with
  | nil => intro b; rfl
  | cons p t ih =>
    intro b
    match t with
    | [] => rfl
    | q :: t2 =>
      rw [List.foldl_cons, ih (f p.2), List.getLast?_cons_cons]
      rcases h2 : (q :: t2).getLast? with _ | x
      · rw [List.getLast?_eq_none_iff] at h2
        cases h2
      · rfl

/-- A field overwritten on every tag-`T` message carries the extraction of
the last such message (last-write-wins). -/
theorem foldl_update_lastWrite {β : Type} (T : UserMessageType)
    (proj : UserRecord → β) (f : MessageData → β)
    (hhit : ∀ r m, proj (updateRecord r T m) = f m)
    (hmiss : ∀ r t m, t ≠ T → proj (updateRecord r t m) = proj r) :
    ∀ (ps : List (UserMessageType × MessageData)) (r0 : UserRecord),
      proj (ps.foldl (fun r p => updateRecord r p.1 p.2) r0)
        = (match (ps.filter (fun p => decide (p.1 = T))).getLast? with
            | some p => f p.2
            | none => proj r0) := by
  intro ps r0
  rw [foldl_update_accum T proj (fun _ m => f m) hhit hmiss ps r0]
  exact foldl_const_last f _ _

/-- The extraction loop of `parse_user_messages` is exactly the fold of
`updateRecord` over the classified tag sequence zipped with the frames. -/
theorem parseRun_eq_fold :
    ∀ (msgs : List MessageData) (s : ClassifierState) (r0 : UserRecord),
      (msgs.foldl parseStep (r0, s)).1
        = (((classifyList s msgs).1.zip msgs).foldl
            (fun r p => updateRecord r p.1 p.2) r0) := by
  intro msgs
  induction msgs with
  | nil => intro s r0; rfl
  | cons m t ih =>
    intro s r0
    simp only [List.foldl_cons, classifyList]
    exact ih (identifyMessageType s m).2 _

/-- `parse_user_messages` on a fresh parser equals the classified-message
fold. -/
theorem parse_eq_mergeClassified (msgs : List MessageData) :
    parse_user_messages msgs
      = mergeClassified ((classifyList initClassifierState msgs).1.zip msgs) :=
  parseRun_eq_fold msgs initClassifierState initUserRecord

/-- C5 (amended): in the fold of classified messages into the output
record, every extracted field is overwritten by a later message of the same
tag (last-write-wins) — including the only map-valued field,
`where_trader_bets_most` — while the multi-valued `trader_types` field
accumulates the labels of all TRADER_TYPE messages in order (deduplicated),
and is never overwritten wholesale.  The category-chart tags have no active
branch in the extraction loop and contribute nothing. -/
theorem c5_merge_semantics (ps : List (UserMessageType × MessageData)) :
    ((mergeClassified ps).total_positions
      = (match (ps.filter (fun p => decide (p.1 = UserMessageType.STATS_TOTAL_POSITIONS))).getLast? with
          | some p => _extract_total_positions p.2
          | none => none))
    ∧
((mergeClassified ps).active_since_date
      = (match (ps.filter (fun p => decide (p.1 = UserMessageType.STATS_ACTIVE_SINCE))).getLast? with
          | some p => (_extract_active_since p.2).1
          | none => none))
    ∧
((mergeClassified ps).active_since_days
      = (match (ps.filter (fun p => decide (p.1 = UserMessageType.STATS_ACTIVE_SINCE))).getLast? with
          | some p => (_extract_active_since p.2).2
          | none => none))
    ∧
((mergeClassified ps).current_balance
      = (match (ps.filter (fun p => decide (p.1 = UserMessageType.STATS_CURRENT_BALANCE))).getLast? with
          | some p => _extract_current_balance p.2
          | none => none))
    ∧
((mergeClassified ps).polymarket_url
      = (match (ps.filter (fun p => decide (p.1 = UserMessageType.VIEW_ON_POLYMARKET))).getLast? with
          | some p => _extract_polymarket_url p.2
          | none => none))
    ∧
((mergeClassified ps).rank_1d_place
      = (match (ps.filter (fun p => decide (p.1 = UserMessageType.RANK_1D))).getLast? with
          | some p => (_extract_rank p.2).1
          | none => none))
    ∧
((mergeClassified ps).rank_1d_amount
      = (match (ps.filter (fun p => decide (p.1 = UserMessageType.RANK_1D))).getLast? with
          | some p => (_extract_rank p.2).2
          | none => none))
    ∧
((mergeClassified ps).rank_7d_place
      = (match (ps.filter (fun p => decide (p.1 = UserMessageType.RANK_7D))).getLast? with
          | some p => (_extract_rank p.2).1
          | none => none))
    ∧
((mergeClassified ps).rank_7d_amount
      = (match (ps.filter (fun p => decide (p.1 = UserMessageType.RANK_7D))).getLast? with
          | some p => (_extract_rank p.2).2
          | none => none))
    ∧
((mergeClassified ps).rank_30d_place
      = (match (ps.filter (fun p => decide (p.1 = UserMessageType.RANK_30D))).getLast? with
          | some p => (_extract_rank p.2).1
          | none => none))
    ∧
((mergeClassified ps).rank_30d_amount
      = (match (ps.filter (fun p => decide (p.1 = UserMessageType.RANK_30D))).getLast? with
          | some p => (_extract_rank p.2).2
          | none => none))
    ∧
((mergeClassified ps).rank_all_time_place
      = (match (ps.filter (fun p => decide (p.1 = UserMessageType.RANK_ALLTIME))).getLast? with
          | some p => (_extract_rank p.2).1
          | none => none))
    ∧
((mergeClassified ps).rank_all_time_amount
      = (match (ps.filter (fun p => decide (p.1 = UserMessageType.RANK_ALLTIME))).getLast? with
          | some p => (_extract_rank p.2).2
          | none => none))
    ∧
((mergeClassified ps).smart_score
      = (match (ps.filter (fun p => decide (p.1 = UserMessageType.SMART_SCORE_SUMMARY))).getLast? with
          | some p => (_extract_smart_score_summary p.2).1
          | none => none))
    ∧
((mergeClassified ps).total_pnl
      = (match (ps.filter (fun p => decide (p.1 = UserMessageType.SMART_SCORE_SUMMARY))).getLast? with
          | some p => (_extract_smart_score_summary p.2).2
          | none => none))
    ∧
((mergeClassified ps).sharpe_ratio
      = (match (ps.filter (fun p => decide (p.1 = UserMessageType.SHARPE_RATIO))).getLast? with
          | some p => _extract_sharpe_ratio p.2
          | none => none))
    ∧
((mergeClassified ps).traded_usd_volume_last_30d_sum
      = (match (ps.filter (fun p => decide (p.1 = UserMessageType.TRADED_VOLUME_30D))).getLast? with
          | some p => _extract_traded_volume p.2
          | none => none))
    ∧
((mergeClassified ps).active_bets_amount
      = (match (ps.filter (fun p => decide (p.1 = UserMessageType.ACTIVE_BETS_SUM))).getLast? with
          | some p => (_extract_active_bets_sum p.2).1
          | none => none))
    ∧
((mergeClassified ps).active_bets_pnl
      = (match (ps.filter (fun p => decide (p.1 = UserMessageType.ACTIVE_BETS_SUM))).getLast? with
          | some p => (_extract_active_bets_sum p.2).2
          | none => none))
    ∧
((mergeClassified ps).finished_bets_amount
      = (match (ps.filter (fun p => decide (p.1 = UserMessageType.FINISHED_BETS_SUM))).getLast? with
          | some p => (_extract_finished_bets_sum p.2).1
          | none => none))
    ∧
((mergeClassified ps).finished_bets_pnl
      = (match (ps.filter (fun p => decide (p.1 = UserMessageType.FINISHED_BETS_SUM))).getLast? with
          | some p => (_extract_finished_bets_sum p.2).2
          | none => none))
    ∧
((mergeClassified ps).best_trade_roi_proc
      = (match (ps.filter (fun p => decide (p.1 = UserMessageType.BEST_TRADE))).getLast? with
          | some p => (_extract_trade_data p.2).1
          | none => none))
    ∧
((mergeClassified ps).best_trade_roi_amount
      = (match (ps.filter (fun p => decide (p.1 = UserMessageType.BEST_TRADE))).getLast? with
          | some p => (_extract_trade_data p.2).2
          | none => none))
    ∧
((mergeClassified ps).worst_trade_roi_proc
      = (match (ps.filter (fun p => decide (p.1 = UserMessageType.WORST_TRADE))).getLast? with
          | some p => (_extract_trade_data p.2).1
          | none => none))
    ∧
((mergeClassified ps).worst_trade_roi_amount
      = (match (ps.filter (fun p => decide (p.1 = UserMessageType.WORST_TRADE))).getLast? with
          | some p => (_extract_trade_data p.2).2
          | none => none))
    ∧
((mergeClassified ps).where_trader_bets_most
      = (match (ps.filter (fun p => decide (p.1 = UserMessageType.WHERE_TRADER_BETS_MOST))).getLast? with
          | some p => _extract_price_buckets p.2
          | none => none))
    ∧
((mergeClassified ps).trader_types
      = (ps.filter (fun p => decide (p.1 = UserMessageType.TRADER_TYPE))).foldl
          (fun ts p => pushTraderType ts p.2) []) :=
  ⟨foldl_update_lastWrite UserMessageType.STATS_TOTAL_POSITIONS
      (fun r => r.total_positions) (fun p2 => _extract_total_positions p2)
      (fun r m => rfl)
      (by intro r t m ht; cases t <;> first | rfl | exact absurd rfl ht)
      ps initUserRecord,
    foldl_update_lastWrite UserMessageType.STATS_ACTIVE_SINCE
      (fun r => r.active_since_date) (fun p2 => (_extract_active_since p2).1)
      (fun r m => rfl)
      (by intro r t m ht; cases t <;> first | rfl | exact absurd rfl ht)
      ps initUserRecord,
    foldl_update_lastWrite UserMessageType.STATS_ACTIVE_SINCE
      (fun r => r.active_since_days) (fun p2 => (_extract_active_since p2).2)
      (fun r m => rfl)
      (by intro r t m ht; cases t <;> first | rfl | exact absurd rfl ht)
      ps initUserRecord,
    foldl_update_lastWrite UserMessageType.STATS_CURRENT_BALANCE
      (fun r => r.current_balance) (fun p2 => _extract_current_balance p2)
      (fun r m => rfl)
      (by intro r t m ht; cases t <;> first | rfl | exact absurd rfl ht)
      ps initUserRecord,
    foldl_update_lastWrite UserMessageType.VIEW_ON_POLYMARKET
      (fun r => r.polymarket_url) (fun p2 => _extract_polymarket_url p2)
      (fun r m => rfl)
      (by intro r t m ht; cases t <;> first | rfl | exact absurd rfl ht)
      ps initUserRecord,
    foldl_update_lastWrite UserMessageType.RANK_1D
      (fun r => r.rank_1d_place) (fun p2 => (_extract_rank p2).1)
      (fun r m => rfl)
      (by intro r t m ht; cases t <;> first | rfl | exact absurd rfl ht)
      ps initUserRecord,
    foldl_update_lastWrite UserMessageType.RANK_1D
      (fun r => r.rank_1d_amount) (fun p2 => (_extract_rank p2).2)
      (fun r m => rfl)
      (by intro r t m ht; cases t <;> first | rfl | exact absurd rfl ht)
      ps initUserRecord,
    foldl_update_lastWrite UserMessageType.RANK_7D
      (fun r => r.rank_7d_place) (fun p2 => (_extract_rank p2).1)
      (fun r m => rfl)
      (by intro r t m ht; cases t <;> first | rfl | exact absurd rfl ht)
      ps initUserRecord,
    foldl_update_lastWrite UserMessageType.RANK_7D
      (fun r => r.rank_7d_amount) (fun p2 => (_extract_rank p2).2)
      (fun r m => rfl)
      (by intro r t m ht; cases t <;> first | rfl | exact absurd rfl ht)
      ps initUserRecord,
    foldl_update_lastWrite UserMessageType.RANK_30D
      (fun r => r.rank_30d_place) (fun p2 => (_extract_rank p2).1)
      (fun r m => rfl)
      (by intro r t m ht; cases t <;> first | rfl | exact absurd rfl ht)
      ps initUserRecord,
    foldl_update_lastWrite UserMessageType.RANK_30D
      (fun r => r.rank_30d_amount) (fun p2 => (_extract_rank p2).2)
      (fun r m => rfl)
      (by intro r t m ht; cases t <;> first | rfl | exact absurd rfl ht)
      ps initUserRecord,
    foldl_update_lastWrite UserMessageType.RANK_ALLTIME
      (fun r => r.rank_all_time_place) (fun p2 => (_extract_rank p2).1)
      (fun r m => rfl)
      (by intro r t m ht; cases t <;> first | rfl | exact absurd rfl ht)
      ps initUserRecord,
    foldl_update_lastWrite UserMessageType.RANK_ALLTIME
      (fun r => r.rank_all_time_amount) (fun p2 => (_extract_rank p2).2)
      (fun r m => rfl)
      (by intro r t m ht; cases t <;> first | rfl | exact absurd rfl ht)
      ps initUserRecord,
    foldl_update_lastWrite UserMessageType.SMART_SCORE_SUMMARY
      (fun r => r.smart_score) (fun p2 => (_extract_smart_score_summary p2).1)
      (fun r m => rfl)
      (by intro r t m ht; cases t <;> first | rfl | exact absurd rfl ht)
      ps initUserRecord,
    foldl_update_lastWrite UserMessageType.SMART_SCORE_SUMMARY
      (fun r => r.total_pnl) (fun p2 => (_extract_smart_score_summary p2).2)
      (fun r m => rfl)
      (by intro r t m ht; cases t <;> first | rfl | exact absurd rfl ht)
      ps initUserRecord,
    foldl_update_lastWrite UserMessageType.SHARPE_RATIO
      (fun r => r.sharpe_ratio) (fun p2 => _extract_sharpe_ratio p2)
      (fun r m => rfl)
      (by intro r t m ht; cases t <;> first | rfl | exact absurd rfl ht)
      ps initUserRecord,
    foldl_update_lastWrite UserMessageType.TRADED_VOLUME_30D
      (fun r => r.traded_usd_volume_last_30d_sum) (fun p2 => _extract_traded_volume p2)
      (fun r m => rfl)
      (by intro r t m ht; cases t <;> first | rfl | exact absurd rfl ht)
      ps initUserRecord,
    foldl_update_lastWrite UserMessageType.ACTIVE_BETS_SUM
      (fun r => r.active_bets_amount) (fun p2 => (_extract_active_bets_sum p2).1)
      (fun r m => rfl)
      (by intro r t m ht; cases t <;> first | rfl | exact absurd rfl ht)
      ps initUserRecord,
    foldl_update_lastWrite UserMessageType.ACTIVE_BETS_SUM
      (fun r => r.active_bets_pnl) (fun p2 => (_extract_active_bets_sum p2).2)
      (fun r m => rfl)
      (by intro r t m ht; cases t <;> first | rfl | exact absurd rfl ht)
      ps initUserRecord,
    foldl_update_lastWrite UserMessageType.FINISHED_BETS_SUM
      (fun r => r.finished_bets_amount) (fun p2 => (_extract_finished_bets_sum p2).1)
      (fun r m => rfl)
      (by intro r t m ht; cases t <;> first | rfl | exact absurd rfl ht)
      ps initUserRecord,
    foldl_update_lastWrite UserMessageType.FINISHED_BETS_SUM
      (fun r => r.finished_bets_pnl) (fun p2 => (_extract_finished_bets_sum p2).2)
      (fun r m => rfl)
      (by intro r t m ht; cases t <;> first | rfl | exact absurd rfl ht)
      ps initUserRecord,
    foldl_update_lastWrite UserMessageType.BEST_TRADE
      (fun r => r.best_trade_roi_proc) (fun p2 => (_extract_trade_data p2).1)
      (fun r m => rfl)
      (by intro r t m ht; cases t <;> first | rfl | exact absurd rfl ht)
      ps initUserRecord,
    foldl_update_lastWrite UserMessageType.BEST_TRADE
      (fun r => r.best_trade_roi_amount) (fun p2 => (_extract_trade_data p2).2)
      (fun r m => rfl)
      (by intro r t m ht; cases t <;> first | rfl | exact absurd rfl ht)
      ps initUserRecord,
    foldl_update_lastWrite UserMessageType.WORST_TRADE
      (fun r => r.worst_trade_roi_proc) (fun p2 => (_extract_trade_data p2).1)
      (fun r m => rfl)
      (by intro r t m ht; cases t <;> first | rfl | exact absurd rfl ht)
      ps initUserRecord,
    foldl_update_lastWrite UserMessageType.WORST_TRADE
      (fun r => r.worst_trade_roi_amount) (fun p2 => (_extract_trade_data p2).2)
      (fun r m => rfl)
      (by intro r t m ht; cases t <;> first | rfl | exact absurd rfl ht)
      ps initUserRecord,
    foldl_update_lastWrite UserMessageType.WHERE_TRADER_BETS_MOST
      (fun r => r.where_trader_bets_most) (fun p2 => _extract_price_buckets p2)
      (fun r m => rfl)
      (by intro r t m ht; cases t <;> first | rfl | exact absurd rfl ht)
      ps initUserRecord,
    foldl_update_accum UserMessageType.TRADER_TYPE
      (fun r => r.trader_types) (fun ts m => pushTraderType ts m)
      (fun r m => rfl)
      (by intro r t m ht; cases t <;> first | rfl | exact absurd rfl ht)
      ps initUserRecord⟩

/-- C5 counterexample: the map field `where_trader_bets_most` is assigned,
not accumulated — a later WHERE_TRADER_BETS_MOST message whose extraction
yields nothing erases the bucket an earlier message supplied. -/
theorem c5_counterexample : ¬ c5MapAccumClaim := by
  intro h
  have happ := h [(UserMessageType.WHERE_TRADER_BETS_MOST, bucketMsgA)]
    (UserMessageType.WHERE_TRADER_BETS_MOST, bucketMsgNone) rfl
    (JsonKey.str ("a")) (pythonRound2 7) (by rfl)
  obtain ⟨v2, hv2⟩ := happ
  have hnone : lookupBucket (JsonKey.str ("a"))
      ((mergeClassified
        ([(UserMessageType.WHERE_TRADER_BETS_MOST, bucketMsgA)]
          ++ [(UserMessageType.WHERE_TRADER_BETS_MOST, bucketMsgNone)])).where_trader_bets_most)
      = none := by rfl
  rw [hnone] at hv2
  exact Option.noConfusion hv2

/-- A scan over a list of busy connections finds nothing and changes nothing. -/
theorem getLoop_all_busy (ttl now : Int) :
    ∀ (fuel k : Nat) (conns : List PooledConn),
      (∀ c ∈ conns, c.in_use = true) →
      getLoop ttl now fuel k conns = (none, conns) := by
  intro fuel
  induction fuel with
  | zero => intro k conns _; rfl
  | succ f ih =>
    intro k conns hbusy
    unfold getLoop
    split
    · next h =>
      have hc : (conns.get ⟨k, h⟩).in_use = true :=
        hbusy _ (List.get_mem conns k h)
      rw [if_neg (fun hcond => by rw [hcond.1] at hc; exact Bool.noConfusion hc)]
      exact ih _ _ hbusy
    · rfl

/-- Setting the element just after a prefix replaces the head of the tail. -/
theorem set_length_append (l1 : List PooledConn) (c d : PooledConn)
    (l2 : List PooledConn) :
    (l1 ++ c :: l2).set l1.length d = l1 ++ d :: l2 := by
  induction l1 with
  | nil => rfl
  | cons a t ih => simp [List.set, ih]

/-- The scan started at index `k` finds the first idle fresh connected entry
after a busy prefix and marks exactly it in use. -/
theorem getLoop_first_idle (ttl now : Int) (c : PooledConn)
    (hidle : c.in_use = false) (hc : c.connected = true)
    (hfresh : now - c.last_used < ttl) :
    ∀ (l1 : List PooledConn), (∀ d ∈ l1, d.in_use = true) →
    ∀ (fuel k : Nat) (conns : List PooledConn) (l2 : List PooledConn),
      conns.drop k = l1 ++ c :: l2 →
      l1.length + 1 ≤ fuel →
      getLoop ttl now fuel k conns =
        (some c.cid,
          conns.set (k + l1.length)
            { cid := c.cid, connected := c.connected, in_use := true,
              created_at := c.created_at, last_used := now }) := by
  intro l1
  induction l1 with
  | nil =>
    intro _ fuel k conns l2 hdrop hfuel
    match fuel, hfuel with
    | f + 1, _ =>
      have hget : conns.get? k = some c := by
        have h0 : (conns.drop k).get? 0 = conns.get? k := by
          rw [List.get?_drop]
          rfl
        rw [← h0, hdrop]
        rfl
      have hk : k < conns.length := by
        by_contra hk
        rw [List.get?_eq_none.mpr (Nat.le_of_not_lt hk)] at hget
        exact Option.noConfusion hget
      have hgetc : conns.get ⟨k, hk⟩ = c := by
        have := List.get?_eq_get hk
        rw [this] at hget
        exact Option.some.inj hget
      unfold getLoop
      rw [dif_pos hk, hgetc, if_pos ⟨hidle, hc⟩, if_pos hfresh]
      simp
  | cons a t ih =>
    intro hbusy fuel k conns l2 hdrop hfuel
    match fuel, hfuel with
    | f + 1, hfuel =>
      have hget : conns.get? k = some a := by
        have h0 : (conns.drop k).get? 0 = conns.get? k := by
          rw [List.get?_drop]
          rfl
        rw [← h0, hdrop]
        rfl
      have hk : k < conns.length := by
        by_contra hk
        rw [List.get?_eq_none.mpr (Nat.le_of_not_lt hk)] at hget
        exact Option.noConfusion hget
      have hgeta : conns.get ⟨k, hk⟩ = a := by
        have := List.get?_eq_get hk
        rw [this] at hget
        exact Option.some.inj hget
      have ha : a.in_use = true := hbusy a (List.mem_cons_self a t)
      have hdrop1 : conns.drop (k + 1) = t ++ c :: l2 := by
        have h1 : conns.drop (k + 1) = (conns.drop k).drop 1 := by
          rw [List.drop_drop]
        rw [h1, hdrop]
        rfl
      have hrec := ih (fun d hd => hbusy d (List.mem_cons_of_mem a hd))
        f (k + 1) conns l2 hdrop1
        (by simp only [List.length_cons] at hfuel; omega)
      unfold getLoop
      rw [dif_pos hk, hgeta, if_neg (by simp [ha]), hrec]
      have harith : k + 1 + t.length = k + (a :: t).length := by
        simp; omega
      rw [harith]

/-- Mapping commutes with index removal. -/
theorem map_eraseIdx_cid :
    ∀ (l : List PooledConn) (k : Nat),
      (l.eraseIdx k).map (fun c => c.cid) = (l.map (fun c => c.cid)).eraseIdx k := by
  intro l
  induction l with
  | nil => intro k; cases k <;> rfl
  | cons a t ih =>
    intro k
    cases k with
    | zero => rfl
    | succ k => simpa [List.eraseIdx] using ih k

/-- Replacing an entry by one with the same identity leaves the identity
list unchanged. -/
theorem map_cid_set_self (conns : List PooledConn) (k : Nat)
    (h : k < conns.length) (v : PooledConn)
    (hv : v.cid = (conns.get ⟨k, h⟩).cid) :
    (conns.set k v).map (fun c => c.cid) = conns.map (fun c => c.cid) := by
  rw [List.map_set]
  apply List.ext
  intro n
  by_cases hn : n = k
  · subst hn
    rw [List.get?_set_eq, List.get?_map, List.get?_eq_get h]
    simp [hv]
  · rw [List.get?_set_ne v.cid (List.map (fun c => c.cid) conns)
      (show k ≠ n from fun he => hn he.symm)]

/-- The identities surviving a reuse scan form a sublist of the original
identity list. -/
theorem getLoop_cids_sublist (ttl now : Int) :
    ∀ (fuel k : Nat) (conns : List PooledConn),
      ((getLoop ttl now fuel k conns).2.map (fun c => c.cid)).Sublist
        (conns.map (fun c => c.cid)) := by
  intro fuel
  induction fuel with
  | zero => intro k conns; exact List.Sublist.refl _
  | succ f ih =>
    intro k conns
    unfold getLoop
    split
    · next hk =>
      split
      · split
        · next hk2 =>
          rw [map_cid_set_self conns k hk
            { cid := (conns.get ⟨k, hk⟩).cid,
              connected := (conns.get ⟨k, hk⟩).connected, in_use := true,
              created_at := (conns.get ⟨k, hk⟩).created_at, last_used := now } rfl]
        · refine (ih (k + 1) (conns.eraseIdx k)).trans ?_
          rw [map_eraseIdx_cid]
          exact List.eraseIdx_sublist _ k
      · exact ih (k + 1) conns
    · exact List.Sublist.refl _

/-- A successful reuse scan returns the identity of an idle, connected,
fresh entry of the scanned list. -/
theorem getLoop_found (ttl now : Int) :
    ∀ (fuel k : Nat) (conns : List PooledConn) (cid : Nat)
      (conns2 : List PooledConn),
      getLoop ttl now fuel k conns = (some cid, conns2) →
      ∃ c ∈ conns, c.cid = cid ∧ c.in_use = false ∧ c.connected = true ∧
        now - c.last_used < ttl := by
  intro fuel
  induction fuel with
  | zero => intro k conns cid conns2 h; exact absurd h (by simp [getLoop])
  | succ f ih =>
    intro k conns cid conns2 h
    unfold getLoop at h
    split at h
    · next hk =>
      split at h
      · next hcond =>
        split at h
        · next hfresh =>
          injection h with h1 h2
          injection h1 with h1
          exact ⟨conns.get ⟨k, hk⟩, List.get_mem conns k hk, h1,
            hcond.1, hcond.2, hfresh⟩
        · obtain ⟨c, hcmem, rest⟩ := ih _ _ _ _ h
          exact ⟨c, (List.eraseIdx_sublist conns k).subset hcmem, rest⟩
      · obtain ⟨c, hcmem, rest⟩ := ih _ _ _ _ h
        exact ⟨c, hcmem, rest⟩
    · exact absurd h (by simp)

/-- After a successful reuse scan the returned identity is held by an entry
marked in use. -/
theorem getLoop_marked (ttl now : Int) :
    ∀ (fuel k : Nat) (conns : List PooledConn) (cid : Nat)
      (conns2 : List PooledConn),
      getLoop ttl now fuel k conns = (some cid, conns2) →
      ∃ c ∈ conns2, c.cid = cid ∧ c.in_use = true := by
  intro fuel
  induction fuel with
  | zero => intro k conns cid conns2 h; exact absurd h (by simp [getLoop])
  | succ f ih =>
    intro k conns cid conns2 h
    unfold getLoop at h
    split at h
    · next hk =>
      split at h
      · split at h
        · injection h with h1 h2
          injection h1 with h1
          subst h2
          have hk2 : k < (conns.set k
              { cid := (conns.get ⟨k, hk⟩).cid,
                connected := (conns.get ⟨k, hk⟩).connected, in_use := true,
                created_at := (conns.get ⟨k, hk⟩).created_at,
                last_used := now }).length := by
            rw [List.length_set]; exact hk
          refine ⟨_, List.get_mem _ k hk2, ?_, ?_⟩
          · rw [List.get_set_eq]
            exact h1
          · rw [List.get_set_eq]
        · exact ih _ _ _ _ h
      · exact ih _ _ _ _ h
    · exact absurd h (by simp)

/-- Releasing an identity held past a prefix of strangers marks exactly
that entry idle and stamps its release time. -/
theorem releaseList_split (now : Int) (cid : Nat) :
    ∀ (l1 : List PooledConn), (∀ d ∈ l1, d.cid ≠ cid) →
    ∀ (c : PooledConn) (l2 : List PooledConn), c.cid = cid →
      releaseList now cid (l1 ++ c :: l2) =
        l1 ++ { c with in_use := false, last_used := now } :: l2 := by
  intro l1
  induction l1 with
  | nil =>
    intro _ c l2 hcid
    simp [releaseList, hcid]
  | cons a t ih =>
    intro hne c l2 hcid
    have ha : a.cid ≠ cid := hne a (List.mem_cons_self a t)
    simp only [List.cons_append, releaseList, if_neg ha]
    show a :: releaseList now cid (t ++ c :: l2) = _
    rw [ih (fun d hd => hne d (List.mem_cons_of_mem a hd)) c l2 hcid]

/-- Releasing never changes the identity list. -/
theorem releaseList_map_cid (now : Int) (cid : Nat) :
    ∀ l : List PooledConn,
      (releaseList now cid l).map (fun c => c.cid) = l.map (fun c => c.cid) := by
  intro l
  induction l with
  | nil => rfl
  | cons a t ih =>
    by_cases h : a.cid = cid
    · simp [releaseList, h]
    · simp [releaseList, h, ih]

/-- `get_connection` on a pool of busy connections: the scan finds nothing,
and with no capacity left no connection is created. -/
theorem getConnection_all_busy (maxC : Nat) (ttl now : Int) (cc : Bool)
    (s : PoolState)
    (hbusy : ∀ d ∈ s.connections, d.in_use = true)
    (hcap : ¬ s.connections.length < maxC) :
    getConnection maxC ttl now cc s =
      (none, { connections := s.connections, nextId := s.nextId }) := by
  unfold getConnection
  rw [getLoop_all_busy ttl now s.connections.length 0 s.connections hbusy]
  simp [hcap]

/-- C6: on a pool whose `max_connections` slots are all leased,
`get_connection` returns nothing; after `release_connection` of any one
leased client, the next `get_connection` succeeds and hands back exactly
that client, and a further `get_connection` on the again-full pool returns
nothing. -/
theorem c6_pool_exhaustion_release
    (maxC : Nat) (ttl now : Int) (cc cc1 cc2 : Bool)
    (l1 l2 : List PooledConn) (c : PooledConn) (s : PoolState)
    (hconn : s.connections = l1 ++ c :: l2)
    (hbusy : ∀ d ∈ s.connections, d.in_use = true)
    (hcap : s.connections.length = maxC)
    (hcid : ∀ d ∈ l1, d.cid ≠ c.cid)
    (hc : c.connected = true)
    (httl : 0 < ttl) :
    (getConnection maxC ttl now cc s).1 = none ∧
    (getConnection maxC ttl now cc1 (releaseConnection now c.cid s)).1
      = some c.cid ∧
    (getConnection maxC ttl now cc2
        ((getConnection maxC ttl now cc1 (releaseConnection now c.cid s)).2)).1
      = none := by
  have hnotlt : ¬ s.connections.length < maxC := by omega
  have hrel : (releaseConnection now c.cid s).connections
      = l1 ++ { c with in_use := false, last_used := now } :: l2 := by
    show releaseList now c.cid s.connections = _
    rw [hconn]
    exact releaseList_split now c.cid l1 hcid c l2 rfl
  have hbusy1 : ∀ d ∈ l1, d.in_use = true := fun d hd =>
    hbusy d (by rw [hconn]; exact List.mem_append_left _ hd)
  have hfind := getLoop_first_idle ttl now
      ({ c with in_use := false, last_used := now }) rfl hc
      (show now - now < ttl by omega)
      l1 hbusy1
      (releaseConnection now c.cid s).connections.length 0
      (releaseConnection now c.cid s).connections l2
      (by rw [List.drop_zero, hrel])
      (by rw [hrel]; simp only [List.length_append, List.length_cons]; omega)
  have hb : getConnection maxC ttl now cc1 (releaseConnection now c.cid s)
      = (some c.cid,
         { connections := l1 ++ { c with in_use := true, last_used := now } :: l2,
           nextId := s.nextId }) := by
    unfold getConnection
    rw [hfind, Nat.zero_add, hrel, set_length_append]
    rfl
  have hbusy2 : ∀ d ∈ l1 ++ { c with in_use := true, last_used := now } :: l2,
      d.in_use = true := by
    intro d hd
    rcases List.mem_append.mp hd with h1 | h2
    · exact hbusy d (by rw [hconn]; exact List.mem_append_left _ h1)
    · rcases List.mem_cons.mp h2 with he | h3
      · rw [he]
      · exact hbusy d
          (by rw [hconn]
              exact List.mem_append_right _ (List.mem_cons_of_mem c h3))
  have hlen2 : (l1 ++ { c with in_use := true, last_used := now } :: l2).length
      = maxC := by
    rw [← hcap, hconn]
    simp [List.length_append, List.length_cons]
  refine ⟨?_, ?_, ?_⟩
  · rw [getConnection_all_busy maxC ttl now cc s hbusy hnotlt]
  · rw [hb]
  · rw [hb]
    rw [getConnection_all_busy maxC ttl now cc2 _ hbusy2
      (show ¬ (l1 ++ { c with in_use := true, last_used := now } :: l2).length
          < maxC by omega)]

/-- The connection list surviving the reuse scan keeps the size bound, the
distinctness and the identity bound of the invariant. -/
theorem getLoop_facts (maxC : Nat) (ttl now : Int) (s : PoolState)
    (hinv : PoolInv maxC s) (r : Option Nat) (conns2 : List PooledConn)
    (hgl : getLoop ttl now s.connections.length 0 s.connections = (r, conns2)) :
    conns2.length ≤ maxC ∧ (conns2.map (fun c => c.cid)).Nodup ∧
      ∀ c ∈ conns2, c.cid < s.nextId := by
  have hsub : (conns2.map (fun c => c.cid)).Sublist
      (s.connections.map (fun c => c.cid)) := by
    have h := getLoop_cids_sublist ttl now s.connections.length 0 s.connections
    rw [hgl] at h
    exact h
  refine ⟨?_, hsub.nodup hinv.2.1, ?_⟩
  · have h := hsub.length_le
    rw [List.length_map, List.length_map] at h
    exact le_trans h hinv.1
  · intro c hc
    have hmem : c.cid ∈ s.connections.map (fun c => c.cid) :=
      hsub.subset (List.mem_map.mpr ⟨c, hc, rfl⟩)
    obtain ⟨d, hd, hdc⟩ := List.mem_map.mp hmem
    rw [← hdc]
    exact hinv.2.2 d hd

/-- `get_connection` preserves the pool invariant. -/
theorem getConnection_inv (maxC : Nat) (ttl now : Int) (cc : Bool)
    (s : PoolState) (hinv : PoolInv maxC s) :
    PoolInv maxC (getConnection maxC ttl now cc s).2 := by
  unfold getConnection
  split
  · next cid0 conns2 hgl =>
    obtain ⟨hlen, hnody, hbound⟩ := getLoop_facts maxC ttl now s hinv _ _ hgl
    exact ⟨hlen, hnody, hbound⟩
  · next conns2 hgl =>
    obtain ⟨hlen, hnody, hbound⟩ := getLoop_facts maxC ttl now s hinv _ _ hgl
    by_cases hlt : conns2.length < maxC
    · rw [if_pos hlt]
      cases cc with
      | true =>
        rw [if_pos rfl]
        refine ⟨?_, ?_, ?_⟩
        · show (conns2 ++
            [({ cid := s.nextId, connected := true, in_use := true,
                created_at := now, last_used := now } : PooledConn)]).length ≤ maxC
          rw [List.length_append]
          simp only [List.length_cons, List.length_nil]
          omega
        · show ((conns2 ++
            [({ cid := s.nextId, connected := true, in_use := true,
                created_at := now, last_used := now } : PooledConn)]).map
                 (fun c => c.cid)).Nodup
          rw [List.map_append]
          refine List.nodup_append.mpr ⟨hnody, ?_, ?_⟩
          · exact List.nodup_singleton _
          · intro a ha hb
            obtain ⟨d, hd, hdc⟩ := List.mem_map.mp ha
            have h1 := hbound d hd
            have h2 : a = s.nextId := List.mem_singleton.mp hb
            omega
        · intro c hc
          show c.cid < s.nextId + 1
          rcases List.mem_append.mp hc with h3 | h4
          · have := hbound c h3
            omega
          · rcases List.mem_cons.mp h4 with he | h5
            · rw [he]
              show s.nextId < s.nextId + 1
              omega
            · exact absurd h5 (List.not_mem_nil c)
      | false =>
        rw [if_neg (by simp)]
        exact ⟨hlen, hnody, hbound⟩
    · rw [if_neg hlt]
      exact ⟨hlen, hnody, hbound⟩

/-- `get_connection` only hands out the identity of an idle, connected,
fresh pooled entry, or a brand-new identity no pooled entry holds; in the
resulting state every entry holding that identity is marked in use. -/
theorem getConnection_post (maxC : Nat) (ttl now : Int) (cc : Bool)
    (s : PoolState) (hinv : PoolInv maxC s) (cid : Nat) (s2 : PoolState)
    (h : getConnection maxC ttl now cc s = (some cid, s2)) :
    ((∃ c ∈ s.connections, c.cid = cid ∧ c.in_use = false ∧ c.connected = true ∧
        now - c.last_used < ttl) ∨
      (cid = s.nextId ∧ ∀ c ∈ s.connections, c.cid ≠ cid)) ∧
    ∀ c ∈ s2.connections, c.cid = cid → c.in_use = true := by
  unfold getConnection at h
  split at h
  · next cid0 conns2 hgl =>
    obtain ⟨hlen, hnody, hbound⟩ := getLoop_facts maxC ttl now s hinv _ _ hgl
    injection h with h1 h2
    injection h1 with h1
    subst h1
    subst h2
    constructor
    · exact Or.inl (getLoop_found ttl now _ _ _ _ _ hgl)
    · intro c hc hcid
      obtain ⟨c2, hc2, hc2cid, hc2use⟩ := getLoop_marked ttl now _ _ _ _ _ hgl
      have hce : c = c2 :=
        List.inj_on_of_nodup_map hnody hc hc2 (by rw [hcid, hc2cid])
      rw [hce]
      exact hc2use
  · next conns2 hgl =>
    obtain ⟨hlen, hnody, hbound⟩ := getLoop_facts maxC ttl now s hinv _ _ hgl
    split at h
    · split at h
      · injection h with h1 h2
        injection h1 with h1
        constructor
        · refine Or.inr ⟨h1.symm, ?_⟩
          intro c hc hcc
          have hb := hinv.2.2 c hc
          omega
        · intro c hc hcid
          rw [← h2] at hc
          rcases List.mem_append.mp hc with h3 | h4
          · exfalso
            have hb := hbound c h3
            omega
          · rcases List.mem_cons.mp h4 with he | h5
            · rw [he]
            · exact absurd h5 (List.not_mem_nil c)
      · exact absurd h (by simp)
    · exact absurd h (by simp)

/-- Every pool operation preserves the pool invariant. -/
theorem poolInv_applyOp (maxC : Nat) (ttl : Int) (s : PoolState) (op : PoolOp)
    (hinv : PoolInv maxC s) : PoolInv maxC (applyOp maxC ttl s op) := by
  cases op with
  | lease now cc => exact getConnection_inv maxC ttl now cc s hinv
  | release cid now =>
    have hmap := releaseList_map_cid now cid s.connections
    refine ⟨?_, ?_, ?_⟩
    · show (releaseList now cid s.connections).length ≤ maxC
      have h2 := congrArg List.length hmap
      rw [List.length_map, List.length_map] at h2
      rw [h2]
      exact hinv.1
    · show ((releaseList now cid s.connections).map (fun c => c.cid)).Nodup
      rw [hmap]
      exact hinv.2.1
    · intro c hc
      show c.cid < s.nextId
      have hmem : c.cid ∈ (releaseList now cid s.connections).map (fun c => c.cid) :=
        List.mem_map.mpr ⟨c, hc, rfl⟩
      rw [hmap] at hmem
      obtain ⟨d, hd, hdc⟩ := List.mem_map.mp hmem
      rw [← hdc]
      exact hinv.2.2 d hd
  | sweep now =>
    have hsub : (s.connections.filter
        (fun c => !(!c.in_use && decide (ttl < now - c.last_used)))).Sublist
          s.connections := List.filter_sublist _
    exact ⟨le_trans hsub.length_le hinv.1, (hsub.map _).nodup hinv.2.1,
      fun c hc => hinv.2.2 c (hsub.subset hc)⟩
  | closeAll =>
    exact ⟨Nat.zero_le maxC, List.nodup_nil,
      fun c hc => absurd hc (List.not_mem_nil c)⟩

/-- Every state reachable from the fresh pool satisfies the invariant. -/
theorem poolInv_runOps (maxC : Nat) (ttl : Int) (ops : List PoolOp) :
    PoolInv maxC (runOps maxC ttl ops) := by
  have h : ∀ (l : List PoolOp) (s : PoolState), PoolInv maxC s →
      PoolInv maxC (l.foldl (applyOp maxC ttl) s) := by
    intro l
    induction l with
    | nil => intro s hs; exact hs
    | cons op t ih =>
      intro s hs
      exact ih _ (poolInv_applyOp maxC ttl s op hs)
  exact h ops initPoolState
    ⟨Nat.zero_le maxC, List.nodup_nil,
      fun c hc => absurd hc (List.not_mem_nil c)⟩

/-- C7: in every pool state reachable by lease, release, sweep and close
operations, the pool never exceeds its capacity and client identities are
pairwise distinct; a successful lease from such a state hands out either an
idle, connected, TTL-fresh pooled client — marked leased afterwards — or a
freshly created client whose identity no pooled entry holds, and the
post-lease state satisfies the invariant again.  In particular an expired
idle entry or an already-leased entry is never handed out. -/
theorem c7_pool_invariants (maxC : Nat) (ttl : Int) (ops : List PoolOp)
    (now : Int) (cc : Bool) :
    PoolInv maxC (runOps maxC ttl ops) ∧
    ∀ (cid : Nat) (s2 : PoolState),
      getConnection maxC ttl now cc (runOps maxC ttl ops) = (some cid, s2) →
      ((∃ c ∈ (runOps maxC ttl ops).connections,
          c.cid = cid ∧ c.in_use = false ∧ c.connected = true ∧
            now - c.last_used < ttl) ∨
        (cid = (runOps maxC ttl ops).nextId ∧
          ∀ c ∈ (runOps maxC ttl ops).connections, c.cid ≠ cid)) ∧
      (∀ c ∈ s2.connections, c.cid = cid → c.in_use = true) ∧
      PoolInv maxC s2 := by
  have hinv := poolInv_runOps maxC ttl ops
  refine ⟨hinv, ?_⟩
  intro cid s2 h
  have hpost := getConnection_post maxC ttl now cc _ hinv cid s2 h
  refine ⟨hpost.1, hpost.2, ?_⟩
  have h2 := getConnection_inv maxC ttl now cc _ hinv
  rw [h] at h2
  exact h2

/-- C6 witness: the exhaustion and release round-trip on a concrete full
two-slot pool. -/
theorem c6_pool_exhaustion_release_witness :
    (getConnection 2 5 3 true poolW).1 = none ∧
    (getConnection 2 5 3 true (releaseConnection 3 cW1.cid poolW)).1
      = some cW1.cid ∧
    (getConnection 2 5 3 true
        ((getConnection 2 5 3 true (releaseConnection 3 cW1.cid poolW)).2)).1
      = none :=
  c6_pool_exhaustion_release 2 5 3 true true true [cW0] [] cW1 poolW rfl
    (by decide) rfl (by decide) rfl (by decide)

/-- C7 witness: the reachable state after one create-lease and the
characterization of a second lease from it. -/
theorem c7_pool_invariants_witness :
    PoolInv 2 (runOps 2 5 [PoolOp.lease 0 true]) ∧
    ((∃ c ∈ (runOps 2 5 [PoolOp.lease 0 true]).connections,
        c.cid = 1 ∧ c.in_use = false ∧ c.connected = true ∧
          (1 : Int) - c.last_used < 5) ∨
      (1 = (runOps 2 5 [PoolOp.lease 0 true]).nextId ∧
        ∀ c ∈ (runOps 2 5 [PoolOp.lease 0 true]).connections, c.cid ≠ 1)) ∧
    (∀ c ∈ poolW7.connections, c.cid = 1 → c.in_use = true) ∧
    PoolInv 2 poolW7 :=
  ⟨(c7_pool_invariants 2 5 [PoolOp.lease 0 true] 1 true).1,
   (c7_pool_invariants 2 5 [PoolOp.lease 0 true] 1 true).2 1 poolW7 (by decide)⟩

/-- C1 counterexample: three consecutive per-frame timeouts stop the
stream with the consecutive-failures break even though every keepalive
ping succeeded, so the four termination causes of the claim are not
exhaustive. -/
theorem c1_counterexample :
    ¬ ∀ (maxM : Option Nat) (totalT : Option Int) (entries : List RecvEntry)
        (r : StopReason),
        (receiveMessages maxM totalT entries).2.2 = some r →
        (r = StopReason.maxFrames ∨ r = StopReason.totalTimeout ∨
          r = StopReason.closed ∨ r = StopReason.pingFailed) := by
  intro h
  exact absurd
    (h (some 10) none
      [⟨0, true, none, true, true⟩, ⟨0, true, none, true, true⟩,
        ⟨0, true, none, true, true⟩]
      StopReason.tooManyFailures (by decide))
    (by decide)

/-- C1 (amended): one loop iteration of `receive_messages` is fully
characterized — the stream stops when the frame limit is reached, the
total timeout has elapsed, the connection is closed, a third consecutive
empty receive occurs (regardless of ping health), or a keepalive ping
fails after an isolated empty receive; a lone empty receive whose ping
probe succeeds (or that finds the connection already gone at the ping
guard) never by itself ends the stream, and a received frame resets the
failure counter and is yielded. -/
theorem c1_receive_iteration (maxM : Option Nat) (totalT : Option Int)
    (e : RecvEntry) (rest : List RecvEntry) (count fails : Nat)
    (acc : List Nat) :
    (maxReached maxM count = true →
      receiveMessagesRun maxM totalT (e :: rest) count fails acc
        = (acc.reverse, count, some StopReason.maxFrames)) ∧
    (maxReached maxM count = false → totalElapsed totalT e.elapsed = true →
      receiveMessagesRun maxM totalT (e :: rest) count fails acc
        = (acc.reverse, count, some StopReason.totalTimeout)) ∧
    (maxReached maxM count = false → totalElapsed totalT e.elapsed = false →
      e.connTop = false →
      receiveMessagesRun maxM totalT (e :: rest) count fails acc
        = (acc.reverse, count, some StopReason.closed)) ∧
    (maxReached maxM count = false → totalElapsed totalT e.elapsed = false →
      e.connTop = true → e.outcome = none → 3 ≤ fails + 1 →
      receiveMessagesRun maxM totalT (e :: rest) count fails acc
        = (acc.reverse, count, some StopReason.tooManyFailures)) ∧
    (maxReached maxM count = false → totalElapsed totalT e.elapsed = false →
      e.connTop = true → e.outcome = none → fails + 1 < 3 →
      e.connAfter = true → e.pingOk = false →
      receiveMessagesRun maxM totalT (e :: rest) count fails acc
        = (acc.reverse, count, some StopReason.pingFailed)) ∧
    (maxReached maxM count = false → totalElapsed totalT e.elapsed = false →
      e.connTop = true → e.outcome = none → fails + 1 < 3 →
      (e.connAfter = true → e.pingOk = true) →
      receiveMessagesRun maxM totalT (e :: rest) count fails acc
        = receiveMessagesRun maxM totalT rest count (fails + 1) acc) ∧
    (∀ m : Nat, maxReached maxM count = false →
      totalElapsed totalT e.elapsed = false →
      e.connTop = true → e.outcome = some m →
      receiveMessagesRun maxM totalT (e :: rest) count fails acc
        = receiveMessagesRun maxM totalT rest (count + 1) 0 (m :: acc)) := by
  refine ⟨?_, ?_, ?_, ?_, ?_, ?_, ?_⟩
  · intro h1
    unfold receiveMessagesRun
    rw [if_pos h1]
  · intro h1 h2
    unfold receiveMessagesRun
    rw [if_neg (by simp [h1]), if_pos h2]
  · intro h1 h2 h3
    unfold receiveMessagesRun
    rw [if_neg (by simp [h1]), if_neg (by simp [h2]), if_pos h3]
  · intro h1 h2 h3 h4 h5
    unfold receiveMessagesRun
    rw [if_neg (by simp [h1]), if_neg (by simp [h2]),
      if_neg (by simp [h3]), h4, if_pos h5]
  · intro h1 h2 h3 h4 h5 h6 h7
    unfold receiveMessagesRun
    rw [if_neg (by simp [h1]), if_neg (by simp [h2]),
      if_neg (by simp [h3]), h4, if_neg (by omega), if_pos ⟨h6, h7⟩]
  · intro h1 h2 h3 h4 h5 h6
    conv_lhs => unfold receiveMessagesRun
    rw [if_neg (by simp [h1]), if_neg (by simp [h2]),
      if_neg (by simp [h3]), h4, if_neg (by omega),
      if_neg (fun hc => by
        have hp := hc.2
        rw [h6 hc.1] at hp
        exact Bool.noConfusion hp)]
  · intro m h1 h2 h3 hm
    conv_lhs => unfold receiveMessagesRun
    rw [if_neg (by simp [h1]), if_neg (by simp [h2]),
      if_neg (by simp [h3]), hm]

/-- C1 witness: a lone empty receive with a healthy ping leaves the loop
running (the resilience conjunct at a concrete iteration). -/
theorem c1_receive_iteration_witness :
    receiveMessagesRun (some 2) (some 100)
        [⟨5, true, none, true, true⟩] 0 0 []
      = receiveMessagesRun (some 2) (some 100) [] 0 (0 + 1) [] :=
  (c1_receive_iteration (some 2) (some 100)
      ⟨5, true, none, true, true⟩ [] 0 0 []).2.2.2.2.2.1
    (by decide) (by decide) (by decide) (by decide) (by decide) (by decide)

/-- The attempts consumed never exceed the range budget. -/
theorem connectLoop_le (retryDelay : ℚ) (env : Nat → Bool) :
    ∀ (remaining att : Nat),
      (connectLoop retryDelay env remaining att).2.1 ≤ remaining := by
  intro remaining
  induction remaining with
  | zero => intro att; exact Nat.le_refl 0
  | succ r ih =>
    intro att
    unfold connectLoop
    by_cases h : env att = true
    · rw [if_pos h]
      show 1 ≤ r + 1
      omega
    · rw [if_neg h]
      show (connectLoop retryDelay env r (att + 1)).2.1 + 1 ≤ r + 1
      have := ih (att + 1)
      omega

/-- Prepending the backoff of attempt `att` to the backoffs of attempts
`att+1 .. att+n` gives the backoffs of attempts `att .. att+n`. -/
theorem delays_shift (retryDelay : ℚ) (att n : Nat) :
    [retryDelay * (Nat.cast att : ℚ)] ++
        (List.range n).map (fun i => retryDelay * (Nat.cast (att + 1 + i) : ℚ))
      = (List.range (n + 1)).map
          (fun i => retryDelay * (Nat.cast (att + i) : ℚ)) := by
  rw [List.range_succ_eq_map, List.map_cons, List.map_map, List.singleton_append]
  refine congrArg₂ List.cons ?_ ?_
  · rw [Nat.add_zero]
  · apply List.map_congr_left
    intro t ht
    show retryDelay * (Nat.cast (att + 1 + t) : ℚ)
      = retryDelay * (Nat.cast (att + (t + 1)) : ℚ)
    rw [show att + 1 + t = att + (t + 1) from by omega]

/-- Backoff indices starting at 1 written with the offset on either
side. -/
theorem delays_one_shift (retryDelay : ℚ) (n : Nat) :
    (List.range n).map (fun i => retryDelay * (Nat.cast (1 + i) : ℚ))
      = (List.range n).map (fun j => retryDelay * (Nat.cast (j + 1) : ℚ)) := by
  apply List.map_congr_left
  intro t ht
  rw [Nat.add_comm]

/-- From a retry attempt on, the loop stops at the first successful
attempt and has slept before every attempt tried. -/
theorem connectLoop_first_success (retryDelay : ℚ) (env : Nat → Bool) :
    ∀ (k remaining att : Nat), 1 ≤ att →
      k < remaining → env (att + k) = true →
      (∀ j, j < k → env (att + j) = false) →
      connectLoop retryDelay env remaining att
        = (true, k + 1,
           (List.range (k + 1)).map
             (fun i => retryDelay * (Nat.cast (att + i) : ℚ))) := by
  intro k
  induction k with
  | zero =>
    intro remaining att hatt hk henv _
    match remaining, hk with
    | r + 1, _ =>
      unfold connectLoop
      rw [if_pos (by simpa using henv), if_pos (by omega)]
      rw [show List.range (0 + 1) = [0] from rfl, List.map_singleton]
      simp
  | succ i ih =>
    intro remaining att hatt hk henv hall
    match remaining, hk with
    | r + 1, hk =>
      have h0 : env att = false := by
        have h := hall 0 (by omega)
        rw [Nat.add_zero] at h
        exact h
      unfold connectLoop
      rw [if_neg (by simp [h0])]
      rw [ih r (att + 1) (by omega) (by omega)
        (by rw [show att + 1 + i = att + (i + 1) from by omega]; exact henv)
        (fun j hj => by
          rw [show att + 1 + j = att + (j + 1) from by omega]
          exact hall (j + 1) (by omega))]
      rw [if_pos (by omega)]
      show ((true : Bool), i + 1 + 1,
          [retryDelay * (Nat.cast att : ℚ)] ++
            (List.range (i + 1)).map
              (fun t => retryDelay * (Nat.cast (att + 1 + t) : ℚ)))
        = _
      rw [delays_shift]

/-- From a retry attempt on, when every remaining attempt fails the loop
exhausts the budget and has slept before every attempt. -/
theorem connectLoop_all_fail (retryDelay : ℚ) (env : Nat → Bool) :
    ∀ (remaining att : Nat), 1 ≤ att →
      (∀ j, j < remaining → env (att + j) = false) →
      connectLoop retryDelay env remaining att
        = (false, remaining,
           (List.range remaining).map
             (fun i => retryDelay * (Nat.cast (att + i) : ℚ))) := by
  intro remaining
  induction remaining with
  | zero => intro att _ _; rfl
  | succ r ih =>
    intro att hatt hall
    have h0 : env att = false := by
      have h := hall 0 (by omega)
      rw [Nat.add_zero] at h
      exact h
    unfold connectLoop
    rw [if_neg (by simp [h0])]
    rw [ih (att + 1) (by omega) (fun j hj => by
      rw [show att + 1 + j = att + (j + 1) from by omega]
      exact hall (j + 1) (by omega))]
    rw [if_pos (by omega)]
    show ((false : Bool), r + 1,
        [retryDelay * (Nat.cast att : ℚ)] ++
          (List.range r).map
            (fun t => retryDelay * (Nat.cast (att + 1 + t) : ℚ)))
      = _
    rw [delays_shift]

/-- C8: `connect` consumes at most `max_retries` attempts; it returns
success at the first successful attempt, having slept
`retry_delay * attemptIndex` before each retry attempt tried so far and
nothing before the first attempt; and it returns failure exactly when all
`max_retries` attempts fail, after sleeping before every retry
attempt. -/
theorem c8_connect_retries (retryDelay : ℚ) (maxRetries : Nat)
    (env : Nat → Bool) :
    (wsConnect retryDelay maxRetries env).2.1 ≤ maxRetries ∧
    (∀ k, k < maxRetries → env k = true → (∀ j, j < k → env j = false) →
      wsConnect retryDelay maxRetries env
        = (true, k + 1,
           (List.range k).map (fun j => retryDelay * (Nat.cast (j + 1) : ℚ)))) ∧
    ((∀ j, j < maxRetries → env j = false) →
      wsConnect retryDelay maxRetries env
        = (false, maxRetries,
           (List.range (maxRetries - 1)).map
             (fun j => retryDelay * (Nat.cast (j + 1) : ℚ)))) := by
  refine ⟨connectLoop_le retryDelay env maxRetries 0, ?_, ?_⟩
  · intro k hk henv hall
    cases k with
    | zero =>
      match maxRetries, hk with
      | r + 1, _ =>
        unfold wsConnect connectLoop
        rw [if_pos (by simpa using henv), if_neg (by omega)]
        rfl
    | succ i =>
      match maxRetries, hk with
      | r + 1, hk =>
        unfold wsConnect connectLoop
        rw [if_neg (by simp [hall 0 (by omega)])]
        rw [connectLoop_first_success retryDelay env i r 1 (by omega) (by omega)
          (by rw [show 1 + i = i + 1 from by omega]; exact henv)
          (fun j hj => by
            rw [show 1 + j = j + 1 from by omega]
            exact hall (j + 1) (by omega))]
        rw [if_neg (by omega)]
        show ((true : Bool), i + 1 + 1,
            [] ++ (List.range (i + 1)).map
              (fun t => retryDelay * (Nat.cast (1 + t) : ℚ)))
          = _
        rw [List.nil_append, delays_one_shift]
  · intro hall
    cases maxRetries with
    | zero => rfl
    | succ r =>
      unfold wsConnect connectLoop
      rw [if_neg (by simp [hall 0 (by omega)])]
      rw [connectLoop_all_fail retryDelay env r 1 (by omega) (fun j hj => by
        rw [show 1 + j = j + 1 from by omega]
        exact hall (j + 1) (by omega))]
      rw [if_neg (by omega)]
      show ((false : Bool), r + 1,
          [] ++ (List.range r).map
            (fun t => retryDelay * (Nat.cast (1 + t) : ℚ)))
        = _
      rw [List.nil_append, delays_one_shift]
      show _ = ((false : Bool), r + 1,
        (List.range (r + 1 - 1)).map
          (fun j => retryDelay * (Nat.cast (j + 1) : ℚ)))
      rw [Nat.succ_sub_one]

/-- C8 witness: with the second of three attempts succeeding, `connect`
succeeds after two attempts with one backoff sleep of
`retry_delay * 1`. -/
theorem c8_connect_retries_witness :
    wsConnect 2 3 (fun n => decide (n = 1))
      = (true, 1 + 1,
         (List.range 1).map (fun j => (2 : ℚ) * (Nat.cast (j + 1) : ℚ))) :=
  (c8_connect_retries 2 3 (fun n => decide (n = 1))).2.1 1
    (by decide) (by decide) (by decide)

/-- The loop from any intermediate counter state: a terminal frame at
relative position `i`, preceded only by non-terminal frames, stops the run
after exactly `i + 1` further messages, collecting the decoded frames seen
up to and including it. -/
theorem fetchUserLoop_terminal (maxM : Nat) :
    ∀ (i : Nat) (frames : List (Option MessageData)) (count : Nat)
      (acc : List MessageData) (dec : MessageData),
      (∀ j, j < i → ∀ d : MessageData, frames.get? j = some (some d) →
        d.scriptFinished ≠ some ("FINISHED_SUCCESSFULLY")) →
      frames.get? i = some (some dec) →
      dec.scriptFinished = some ("FINISHED_SUCCESSFULLY") →
      count + i + 1 ≤ maxM →
      fetchUserLoop maxM frames count acc
        = (count + i + 1,
           acc.reverse ++ (frames.take (i + 1)).filterMap (fun x => x)) := by
  intro i
  induction i with
  | zero =>
    intro frames count acc dec _ hget hterm hle
    match frames, hget with
    | some d :: rest, hget =>
      have hd : d = dec := Option.some.inj (Option.some.inj hget)
      subst hd
      unfold fetchUserLoop
      rw [if_neg (by omega)]
      show (if d.scriptFinished = some ("FINISHED_SUCCESSFULLY")
          then (count + 1, (d :: acc).reverse)
          else fetchUserLoop maxM rest (count + 1) (d :: acc)) = _
      rw [if_pos hterm, List.reverse_cons]
      rfl
  | succ i ih =>
    intro frames count acc dec hpre hget hterm hle
    match frames with
    | f0 :: rest =>
      have hget1 : rest.get? i = some (some dec) := hget
      cases f0 with
      | none =>
        unfold fetchUserLoop
        rw [if_neg (by omega)]
        rw [ih rest (count + 1) acc dec
          (fun j hj d hd => hpre (j + 1) (by omega) d hd)
          hget1 hterm (by omega)]
        rw [show count + 1 + i = count + (i + 1) from by omega]
        rfl
      | some d0 =>
        have hnt : d0.scriptFinished ≠ some ("FINISHED_SUCCESSFULLY") :=
          hpre 0 (by omega) d0 rfl
        unfold fetchUserLoop
        rw [if_neg (by omega)]
        show (if d0.scriptFinished = some ("FINISHED_SUCCESSFULLY")
            then (count + 1, (d0 :: acc).reverse)
            else fetchUserLoop maxM rest (count + 1) (d0 :: acc)) = _
        rw [if_neg hnt]
        rw [ih rest (count + 1) (d0 :: acc) dec
          (fun j hj d hd => hpre (j + 1) (by omega) d hd)
          hget1 hterm (by omega)]
        rw [List.reverse_cons,
          show count + 1 + i = count + (i + 1) from by omega,
          List.append_assoc]
        rfl

/-- C9: a decoded frame carrying `scriptFinished = FINISHED_SUCCESSFULLY`
arriving as message `i + 1` of a run capped at `maxM` messages stops the
driver at exactly `i + 1` messages processed — strictly fewer than the
cap — returning the decoded frames observed up to and including the
terminal one. -/
theorem c9_terminal_stop (maxM : Nat) (frames : List (Option MessageData))
    (i : Nat) (dec : MessageData)
    (hpre : ∀ j, j < i → ∀ d : MessageData, frames.get? j = some (some d) →
      d.scriptFinished ≠ some ("FINISHED_SUCCESSFULLY"))
    (hget : frames.get? i = some (some dec))
    (hterm : dec.scriptFinished = some ("FINISHED_SUCCESSFULLY"))
    (hlt : i + 1 < maxM) :
    fetchUserData maxM frames
      = (i + 1, (frames.take (i + 1)).filterMap (fun x => x)) ∧
    i + 1 ≠ maxM := by
  constructor
  · have h := fetchUserLoop_terminal maxM i frames 0 [] dec hpre hget hterm
      (by omega)
    show fetchUserLoop maxM frames 0 []
      = (i + 1, (frames.take (i + 1)).filterMap (fun x => x))
    rw [h, Nat.zero_add]
    rfl
  · omega

/-- C9 witness: a terminal second frame of a run capped at 500 messages
stops the run at 2 messages. -/
theorem c9_terminal_stop_witness :
    (fetchUserData 500 [some plainMsg, some termMsg]
      = (1 + 1,
         (([some plainMsg, some termMsg]).take (1 + 1)).filterMap
           (fun x => x)) ∧
     1 + 1 ≠ 500) :=
  c9_terminal_stop 500 [some plainMsg, some termMsg] 1 termMsg
    (by
      intro j hj d hd
      match j, hj with
      | 0, _ =>
        have hd2 : some (some plainMsg) = some (some d) := hd
        injection hd2 with h1
        injection h1 with h1
        rw [← h1]
        exact fun hcon => Option.noConfusion hcon)
    rfl rfl (by omega)

end Hashdive
